import Mathlib

/-!
Verification of the community-api repository (TypeScript source under `src/`)
against its natural-language specification.  Each component that the checked
claims touch is shallowly embedded: pure TypeScript functions become Lean
functions, Firestore state becomes explicit association-list state, JS
numbers become `ℚ` (or `ℝ` where the code uses `Math.exp`/`Math.sqrt`),
timestamps become `Int` milliseconds, and fallible code returns `Except`.
-/

/-! ## JS primitives

Models of the JavaScript string/number primitives the code uses.
`String.prototype.trim`, `Number(...)`, `Number.parseInt(..., 10)`,
`Array.prototype.sort` (stable, hence modelled with `List.insertionSort`,
which is stable), `Set` dedup (keeps first occurrence), `slice(-n)`.
-/

/-- The whitespace characters relevant to `String.prototype.trim`. -/
def jsIsWS (c : Char) : Bool :=
  c = ' ' ∨ c = '\t' ∨ c = '\n' ∨ c = '\r'

/-- `String.prototype.trim()` : drop leading and trailing whitespace. -/
def jsTrim (s : String) : String :=
  ⟨((s.data.dropWhile jsIsWS).reverse.dropWhile jsIsWS).reverse⟩

/-- `String.prototype.startsWith(p)`. -/
def jsStartsWith (s p : String) : Bool :=
  p.data.isPrefixOf s.data

/-- `String.prototype.toLowerCase()` (ASCII case mapping; accented letters
such as `é` are unaffected, which is what matters for the name-match model). -/
def jsToLower (s : String) : String :=
  ⟨s.data.map Char.toLower⟩

/-- JS `Set` iteration order keeps the first occurrence of each element. -/
def jsSetDedup : List String → List String :=
  go []
where
  go (seen : List String) : List String → List String
    | [] => []
    | x :: xs => if x ∈ seen then go seen xs else x :: go (x :: seen) xs

/-- `Array.prototype.slice(-n)` : the last `n` elements. -/
def jsSliceLast (n : Nat) (l : List α) : List α :=
  l.drop (l.length - n)

/-- `Math.floor` of a non-negative JS number, as an array index. -/
def jsFloorNat (q : ℚ) : Nat :=
  (⌊q⌋).toNat

/-- A decimal numeral body: digits, optionally with one `.` and digits. -/
def decimalChars : List Char → Bool
  | [] => false
  | cs =>
    let intPart := cs.takeWhile Char.isDigit
    let rest := cs.drop intPart.length
    match rest with
    | [] => intPart ≠ []
    | '.' :: frac => (intPart ≠ [] ∨ frac ≠ []) ∧ frac.all Char.isDigit
    | _ => false

/-- Value of a digit list read in base 10. -/
def digitsVal : List Char → Nat
  | [] => 0
  | c :: cs => c.toNat - '0'.toNat + 10 * digitsVal cs

/-- Value of p digit string read left to right. -/
def digitsValL (cs : List Char) : Nat :=
  digitsVal cs.reverse

/-- Rational value of a decimal numeral `intPart.fracPart`. -/
def decimalVal (cs : List Char) : ℚ :=
  let intPart := cs.takeWhile Char.isDigit
  let rest := cs.drop intPart.length
  match rest with
  | '.' :: frac => (digitsValL intPart : ℚ) + (digitsValL frac : ℚ) / ((10 : ℚ) ^ frac.length)
  | _ => (digitsValL intPart : ℚ)

/-- `Number(s)` restricted to trimmed decimal numerals: the empty string is
`0`, a (signed) decimal numeral is its value, anything else is `NaN`
(`none`).  Hex/binary/`Infinity` forms are outside the model's domain. -/
def jsNumber (s : String) : Option ℚ :=
  match (jsTrim s).data with
  | [] => some 0
  | '-' :: cs => if decimalChars cs then some (-(decimalVal cs)) else none
  | '+' :: cs => if decimalChars cs then some (decimalVal cs) else none
  | cs => if decimalChars cs then some (decimalVal cs) else none

/-- `Number.parseInt(s, 10)` : trim, optional sign, then the longest prefix
of decimal digits; `NaN` (`none`) when that prefix is empty. -/
def jsParseInt10 (s : String) : Option Int :=
  match (jsTrim s).data with
  | '-' :: cs =>
    let ds := cs.takeWhile Char.isDigit
    if ds = [] then none else some (-(digitsValL ds : Int))
  | '+' :: cs =>
    let ds := cs.takeWhile Char.isDigit
    if ds = [] then none else some (digitsValL ds : Int)
  | cs =>
    let ds := cs.takeWhile Char.isDigit
    if ds = [] then none else some (digitsValL ds : Int)

/-! ## Stable sorting

`Array.prototype.sort` with a consistent comparator is a stable sort, so any
stable sorting algorithm computes the same output; we use
`List.insertionSort`, which is stable, and prove the stability property we
need: filtering the sorted output by one key value returns those elements in
their input order. -/

theorem filter_orderedInsert {α : Type} (key : α → Int) (t : Int) (a : α)
    (l : List α) :
    (List.orderedInsert (fun x y => key x ≤ key y) a l).filter
        (fun o => key o = t)
      = if key a = t then a :: l.filter (fun o => key o = t)
        else l.filter (fun o => key o = t) := by
  induction l with
  | nil => by_cases h : key a = t <;> simp [List.orderedInsert, h]
  | cons b l ih =>
    simp only [List.orderedInsert]
    by_cases hab : key a ≤ key b
    · rw [if_pos hab]
      by_cases hat : key a = t <;> by_cases hbt : key b = t <;>
        simp [List.filter_cons, hat, hbt]
    · rw [if_neg hab]
      by_cases hbt : key b = t
      · have hat : ¬ key a = t := fun h => hab (le_of_eq (h.trans hbt.symm))
        simp [List.filter_cons, hbt, ih, hat]
      · simp [List.filter_cons, hbt, ih]

theorem filter_insertionSort {α : Type} (key : α → Int) (t : Int)
    (l : List α) :
    (List.insertionSort (fun x y => key x ≤ key y) l).filter
        (fun o => key o = t)
      = l.filter (fun o => key o = t) := by
  induction l with
  | nil => rfl
  | cons a l ih =>
    by_cases hat : key a = t <;>
      simp [List.insertionSort, filter_orderedInsert, List.filter_cons, hat, ih]

/-! ## C6 : `EventSeriesStore.mergeOccurrences` (src/unnamed/part_010)

One upcoming occurrence of a series, as stored on the series document. -/

structure SeriesOccurrence where
  eventId : String
  title : String
  startTime : Int
  endTime : Option Int
  location : Option String
  tags : List String
deriving DecidableEq, Repr

/-- The comparator `(a, b) => a.startTime.toMillis() - b.startTime.toMillis()`
as the total preorder it sorts by. -/
def occLE (a b : SeriesOccurrence) : Prop :=
  a.startTime ≤ b.startTime

instance : DecidableRel occLE := fun _ _ => inferInstanceAs (Decidable (_ ≤ _))

instance : IsTotal SeriesOccurrence occLE :=
  ⟨fun x y => le_total x.startTime y.startTime⟩

instance : IsTrans SeriesOccurrence occLE :=
  ⟨fun _ _ _ h h' => le_trans h h'⟩

/-- Lexical `≤` on char lists via code points (used only to express the
spec's claimed `eventId` tie-break). -/
def charListLe : List Char → List Char → Bool
  | [], _ => true
  | _ :: _, [] => false
  | a :: as, b :: bs =>
    if a.toNat < b.toNat then true
    else if b.toNat < a.toNat then false
    else charListLe as bs

/-- Lexical `≤` on strings via code points. -/
def strLexLe (a b : String) : Bool :=
  charListLe a.data b.data

/-- `mergeOccurrences` before the final `slice(0, 20)`: drop the updated
event's old occurrence, append the new occurrence, stable-sort by
`startTime`. -/
def mergedOccurrences (existing : List SeriesOccurrence)
    (next : SeriesOccurrence) : List SeriesOccurrence :=
  let filtered := existing.filter (fun item => item.eventId ≠ next.eventId)
  let updated := filtered ++ [next]
  updated.insertionSort occLE

/-- `EventSeriesStore.mergeOccurrences` : merge the new occurrence and cap
the array at 20 entries. -/
def mergeOccurrences (existing : List SeriesOccurrence)
    (next : SeriesOccurrence) : List SeriesOccurrence :=
  (mergedOccurrences existing next).take 20

/-- The merge as the spec describes it: identical `startTime` ties broken
lexically by `eventId`.  Modelled from the spec sentence "occurrences with
identical `startTime` are ordered by `eventId` lexically", for comparison
with the merge the code performs. -/
def specLexTieBreakMerge (existing : List SeriesOccurrence)
    (next : SeriesOccurrence) : List SeriesOccurrence :=
  let filtered := existing.filter (fun item => item.eventId ≠ next.eventId)
  ((filtered ++ [next]).insertionSort
      (fun a b => a.startTime < b.startTime
        ∨ (a.startTime = b.startTime ∧ strLexLe a.eventId b.eventId))).take 20

def occZ : SeriesOccurrence :=
  { eventId := "z-event", title := "Z", startTime := 1000,
    endTime := none, location := none, tags := [] }

def occA : SeriesOccurrence :=
  { eventId := "a-event", title := "A", startTime := 1000,
    endTime := none, location := none, tags := [] }

/-- C6, counterexample: two occurrences with identical `startTime` are NOT
ordered lexically by `eventId` — the stored occurrence `"z-event"` stays in
front of the freshly merged `"a-event"`, while the spec's tie-break would
put `"a-event"` first. -/
theorem C6_counterexample :
    mergeOccurrences [occZ] occA = [occZ, occA]
      ∧ specLexTieBreakMerge [occZ] occA = [occA, occZ]
      ∧ occZ.startTime = occA.startTime
      ∧ [occZ, occA] ≠ [occA, occZ] := by
  refine ⟨rfl, by decide, rfl, by decide⟩

/-- C6, amended: the merge sorts ascending by `startTime` with a STABLE
sort, so occurrences with identical `startTime` keep their previous relative
order and the new occurrence comes after every retained occurrence with the
same `startTime` (they are not reordered by `eventId`); the result is the
first 20 entries of that stable-sorted list. -/
theorem C6_amended (existing : List SeriesOccurrence)
    (next : SeriesOccurrence) :
    List.Sorted occLE (mergeOccurrences existing next)
      ∧ (∀ t : Int,
          (mergedOccurrences existing next).filter (fun o => o.startTime = t)
            = ((existing.filter (fun item => item.eventId ≠ next.eventId))
                ++ [next]).filter (fun o => o.startTime = t))
      ∧ mergeOccurrences existing next
          = (mergedOccurrences existing next).take 20 := by
  refine ⟨?_, ?_, rfl⟩
  · exact (List.sorted_insertionSort occLE _).sublist (List.take_sublist _ _)
  · intro t
    exact filter_insertionSort (fun o : SeriesOccurrence => o.startTime) t _

/-! ## C3 : `EventCategoryStore` (src/functions/src/services/eventCategoryStore.ts)

Category documents live in the `eventCategories` collection; the claims are
about one reachable document, so the state is a single `Option Category`.
Versions are JS numbers (`ℚ`), timestamps `Int` milliseconds. -/

namespace CatStore

/-- `createSlug` (src/unnamed/part_006): lower-case, strip quotes, collapse
non-alphanumeric runs to `-`, trim dashes. -/
def isLowerAlnum (c : Char) : Bool :=
  ('a'.toNat ≤ c.toNat ∧ c.toNat ≤ 'z'.toNat)
    ∨ ('0'.toNat ≤ c.toNat ∧ c.toNat ≤ '9'.toNat)

def dashCollapse : List Char → List Char
  | [] => []
  | c :: cs =>
    match dashCollapse cs with
    | [] => [c]
    | d :: ds => if c = '-' ∧ d = '-' then d :: ds else c :: d :: ds

def createSlug (value : String) : String :=
  let lowered := (jsToLower value).data.filter
    (fun c => ¬(c = '\'' ∨ c = '"' ∨ c = '`'))
  let dashed := lowered.map (fun c => if isLowerAlnum c then c else '-')
  ⟨(((dashCollapse dashed).dropWhile (· = '-')).reverse.dropWhile
      (· = '-')).reverse⟩

structure ChangeLogEntry where
  version : ℚ
  addedSeriesIds : List String
  addedSeriesTitles : List String
  createdAt : Int
deriving DecidableEq, Repr

structure Category where
  id : String
  hostId : String
  name : String
  slug : String
  description : Option String
  tags : List String
  sampleSeriesTitles : List String
  seriesIds : List String
  version : ℚ
  changeLog : List ChangeLogEntry
  createdAt : Int
  updatedAt : Int
deriving DecidableEq, Repr

/-- `sanitizeTags` : trim+lowercase, drop empties, `Set` dedup, cap at 25. -/
def sanitizeTags (tags : List String) : List String :=
  (jsSetDedup ((tags.map (fun t => jsToLower (jsTrim t))).filter
    (fun t => t ≠ ""))).take 25

/-- `mergeTags` : union of sanitized existing and new tags, capped at 50. -/
def mergeTags (existing next : List String) : List String :=
  (jsSetDedup (sanitizeTags existing ++ sanitizeTags next)).take 50

structure CategoryCreateInput where
  id : String
  hostId : String
  name : String
  tags : List String
  seriesId : String
  seriesTitle : String
deriving DecidableEq, Repr

/-- `EventCategoryStore.createCategory` : `set(..., {merge:true})` writes a
fresh version-1 document with a single change-log entry (`[x].filter(Boolean)`
drops an empty title). -/
def createCategory (input : CategoryCreateInput) (now : Int) : Category :=
  { id := input.id
    hostId := input.hostId
    name := input.name
    slug := if createSlug input.name = "" then input.id
            else createSlug input.name
    description := none
    tags := sanitizeTags input.tags
    sampleSeriesTitles :=
      if input.seriesTitle = "" then [] else [input.seriesTitle]
    seriesIds := [input.seriesId]
    version := 1
    changeLog :=
      [{ version := 1
         addedSeriesIds := [input.seriesId]
         addedSeriesTitles :=
           if input.seriesTitle = "" then [] else [input.seriesTitle]
         createdAt := now }]
    createdAt := now
    updatedAt := now }

/-- `EventCategoryStore.addSeriesToCategory` (transaction body, document
present): refresh samples/tags, `arrayUnion` the series id, and when the
series is new bump `version` and append a change-log entry truncated to the
last 25 (`slice(-25)`). -/
def addSeriesToCategory (data : Category) (seriesId seriesTitle : String)
    (tags : List String) (now : Int) : Category :=
  let sampleTitles :=
    if seriesTitle ≠ "" ∧ seriesTitle ∉ data.sampleSeriesTitles
    then data.sampleSeriesTitles ++ [seriesTitle]
    else data.sampleSeriesTitles
  let trimmedSamples := jsSliceLast 8 sampleTitles
  let nextTags := mergeTags data.tags tags
  let newSeriesIds :=
    if seriesId ∈ data.seriesIds then data.seriesIds
    else data.seriesIds ++ [seriesId]
  let base := { data with
    sampleSeriesTitles := trimmedSamples
    tags := nextTags
    updatedAt := now
    seriesIds := newSeriesIds }
  if seriesId ∈ data.seriesIds then base
  else
    let nextVersion := data.version + 1
    let entry : ChangeLogEntry :=
      { version := nextVersion
        addedSeriesIds := [seriesId]
        addedSeriesTitles := if seriesTitle = "" then [] else [seriesTitle]
        createdAt := now }
    { base with
      version := nextVersion
      changeLog := jsSliceLast 25 (data.changeLog ++ [entry]) }

/-- `EventCategoryStore.removeSeriesFromCategory` : `arrayRemove` the series
id (removes every occurrence). -/
def removeSeriesFromCategory (data : Category) (seriesId : String)
    (now : Int) : Category :=
  { data with
    seriesIds := data.seriesIds.filter (fun s => s ≠ seriesId)
    updatedAt := now }

/-- One operation on the (single) category document.  A failing operation
(`addSeries`/`removeSeries` on a missing document) leaves the document
unchanged: the transaction throws before writing. -/
inductive CatOp where
  | create (input : CategoryCreateInput) (now : Int)
  | addSeries (seriesId seriesTitle : String) (tags : List String) (now : Int)
  | removeSeries (seriesId : String) (now : Int)
deriving DecidableEq, Repr

def applyOp : Option Category → CatOp → Option Category
  | _, .create input now => some (createCategory input now)
  | none, .addSeries _ _ _ _ => none
  | some c, .addSeries sid title tags now =>
      some (addSeriesToCategory c sid title tags now)
  | none, .removeSeries _ _ => none
  | some c, .removeSeries sid now => some (removeSeriesFromCategory c sid now)

def applyOps (st : Option Category) (ops : List CatOp) : Option Category :=
  ops.foldl applyOp st

/-- A category document the store can actually produce. -/
def ReachableCat (c : Category) : Prop :=
  ∃ ops : List CatOp, applyOps none ops = some c

/-- Store invariant: version at least 1, change-log bounded by both 25 and
the version count, entry versions bounded by the document version, and —
while nothing has been truncated (`version ≤ 25`) — every member series has
a change-log bump. -/
def CatInv (c : Category) : Prop :=
  1 ≤ c.version
    ∧ c.changeLog.length ≤ 25
    ∧ (c.changeLog.length : ℚ) ≤ c.version
    ∧ (∀ e ∈ c.changeLog, e.version ≤ c.version)
    ∧ (c.version ≤ 25 →
        ∀ s ∈ c.seriesIds, ∃ e ∈ c.changeLog, s ∈ e.addedSeriesIds)

theorem jsSliceLast_of_le {l : List α} {n : Nat} (h : l.length ≤ n) :
    jsSliceLast n l = l := by
  simp [jsSliceLast, Nat.sub_eq_zero_of_le h]

theorem jsSliceLast_length (n : Nat) (l : List α) :
    (jsSliceLast n l).length ≤ n := by
  simp only [jsSliceLast, List.length_drop]
  omega

/-- The change-log entry appended by a version bump. -/
def bumpEntry (c : Category) (sid title : String) (now : Int) :
    ChangeLogEntry :=
  { version := c.version + 1
    addedSeriesIds := [sid]
    addedSeriesTitles := if title = "" then [] else [title]
    createdAt := now }

theorem addSeriesToCategory_of_mem (c : Category) (sid title : String)
    (tags : List String) (now : Int) (hmem : sid ∈ c.seriesIds) :
    (addSeriesToCategory c sid title tags now).version = c.version
      ∧ (addSeriesToCategory c sid title tags now).changeLog = c.changeLog
      ∧ (addSeriesToCategory c sid title tags now).seriesIds = c.seriesIds := by
  simp [addSeriesToCategory, hmem]

theorem addSeriesToCategory_of_not_mem (c : Category) (sid title : String)
    (tags : List String) (now : Int) (hmem : sid ∉ c.seriesIds) :
    (addSeriesToCategory c sid title tags now).version = c.version + 1
      ∧ (addSeriesToCategory c sid title tags now).changeLog
          = jsSliceLast 25 (c.changeLog ++ [bumpEntry c sid title now])
      ∧ (addSeriesToCategory c sid title tags now).seriesIds
          = c.seriesIds ++ [sid] := by
  simp [addSeriesToCategory, hmem, bumpEntry]

theorem catInv_create (input : CategoryCreateInput) (now : Int) :
    CatInv (createCategory input now) := by
  unfold CatInv createCategory
  refine ⟨by norm_num, by simp, by simp, ?_, ?_⟩
  · intro e he
    simp only [List.mem_singleton] at he
    simp [he]
  · intro _ s hs
    simp only at hs
    exact ⟨_, List.mem_singleton_self _, by simpa using hs⟩

theorem catInv_addSeries (c : Category) (sid title : String)
    (tags : List String) (now : Int) (h : CatInv c) :
    CatInv (addSeriesToCategory c sid title tags now) := by
  obtain ⟨h1, h2, h3, h4, h5⟩ := h
  by_cases hmem : sid ∈ c.seriesIds
  · obtain ⟨hv, hl, hs⟩ :=
      addSeriesToCategory_of_mem c sid title tags now hmem
    exact ⟨hv ▸ h1, hl ▸ h2, by rw [hv, hl]; exact h3,
      by rw [hv, hl]; exact h4, by rw [hv, hl, hs]; exact h5⟩
  · obtain ⟨hv, hl, hs⟩ :=
      addSeriesToCategory_of_not_mem c sid title tags now hmem
    set entry := bumpEntry c sid title now with hentry
    have hL : c.changeLog.length + 1 ≤ 25
        → jsSliceLast 25 (c.changeLog ++ [entry]) = c.changeLog ++ [entry] := by
      intro hle
      apply jsSliceLast_of_le
      simpa using hle
    refine ⟨?_, ?_, ?_, ?_, ?_⟩
    · rw [hv]; linarith
    · rw [hl]; exact jsSliceLast_length 25 _
    · rw [hv, hl]
      have hdl : (jsSliceLast 25 (c.changeLog ++ [entry])).length
          ≤ c.changeLog.length + 1 := by
        simp only [jsSliceLast, List.length_drop, List.length_append,
          List.length_singleton]
        omega
      calc ((jsSliceLast 25 (c.changeLog ++ [entry])).length : ℚ)
          ≤ ((c.changeLog.length + 1 : ℕ) : ℚ) := by exact_mod_cast hdl
        _ = (c.changeLog.length : ℚ) + 1 := by push_cast; ring
        _ ≤ c.version + 1 := by linarith
    · rw [hv, hl]
      intro e he
      have he' : e ∈ c.changeLog ++ [entry] := by
        simpa [jsSliceLast] using List.drop_subset _ _ he
      rcases List.mem_append.mp he' with h' | h'
      · exact le_trans (h4 e h') (by linarith)
      · simp only [List.mem_singleton] at h'
        rw [h', hentry]
        simp [bumpEntry]
    · rw [hv, hl, hs]
      intro hvle s hsmem
      have hv' : c.version ≤ 25 := by linarith
      have hlenQ : (c.changeLog.length : ℚ) + 1 ≤ 25 := by linarith
      have hlen : c.changeLog.length + 1 ≤ 25 := by exact_mod_cast hlenQ
      rw [hL hlen]
      rcases List.mem_append.mp hsmem with hs' | hs'
      · obtain ⟨e, he, hee⟩ := h5 hv' s hs'
        exact ⟨e, List.mem_append_left _ he, hee⟩
      · simp only [List.mem_singleton] at hs'
        refine ⟨entry, List.mem_append_right _ (List.mem_singleton_self _), ?_⟩
        rw [hentry, hs']
        simp [bumpEntry]

theorem catInv_removeSeries (c : Category) (sid : String) (now : Int)
    (h : CatInv c) : CatInv (removeSeriesFromCategory c sid now) := by
  obtain ⟨h1, h2, h3, h4, h5⟩ := h
  refine ⟨h1, h2, h3, h4, ?_⟩
  intro hv s hs
  exact h5 hv s (List.mem_of_mem_filter hs)

theorem catInv_applyOp (st : Option Category)
    (hst : ∀ c, st = some c → CatInv c) (op : CatOp) :
    ∀ c, applyOp st op = some c → CatInv c := by
  intro c hc
  cases op with
  | create input now =>
    simp only [applyOp, Option.some_inj] at hc
    exact hc ▸ catInv_create input now
  | addSeries sid title tags now =>
    cases st with
    | none => simp [applyOp] at hc
    | some c0 =>
      simp only [applyOp, Option.some_inj] at hc
      exact hc ▸ catInv_addSeries c0 sid title tags now (hst c0 rfl)
  | removeSeries sid now =>
    cases st with
    | none => simp [applyOp] at hc
    | some c0 =>
      simp only [applyOp, Option.some_inj] at hc
      exact hc ▸ catInv_removeSeries c0 sid now (hst c0 rfl)

theorem catInv_applyOps (ops : List CatOp) :
    ∀ st : Option Category, (∀ c, st = some c → CatInv c) →
      ∀ c, applyOps st ops = some c → CatInv c := by
  induction ops with
  | nil => intro st hst c hc; exact hst c hc
  | cons op ops ih =>
    intro st hst c hc
    exact ih (applyOp st op) (catInv_applyOp st hst op) c hc

theorem reachable_catInv {c : Category} (h : ReachableCat c) : CatInv c := by
  obtain ⟨ops, hops⟩ := h
  exact catInv_applyOps ops none (by intro c h; cases h) c hops

end CatStore

namespace CatStore

def c3Input : CategoryCreateInput :=
  { id := "category:abc", hostId := "host:h", name := "Sports",
    tags := [], seriesId := "s00", seriesTitle := "T0" }

/-- Create a category for series `"s00"`, then add 25 further distinct
series: 26 change-log entries were produced, so the stored log (capped at
25) has lost the entry that recorded `"s00"`. -/
def c3CexOps : List CatOp :=
  CatOp.create c3Input 0 ::
    ((List.range 25).map
      (fun i => CatOp.addSeries ("s" ++ toString (i + 1)) "T" [] 0))

end CatStore

/-- C3, counterexample: after a create and 25 distinct additions the
resulting category still lists `"s00"` in `seriesIds`, but no retained
change-log entry mentions it — `union(changeLog[*].addedSeriesIds)` is not a
superset of `seriesIds`. -/
theorem C3_counterexample :
    ∃ c : CatStore.Category,
      CatStore.applyOps none CatStore.c3CexOps = some c
        ∧ "s00" ∈ c.seriesIds
        ∧ ∀ e ∈ c.changeLog, "s00" ∉ e.addedSeriesIds := by
  refine ⟨_, rfl, by decide, by decide⟩

/-- C3, amended: for every reachable category document `c`, as long as the
change-log has not been truncated — at most 25 version bumps, i.e.
`c.version ≤ 25` — every member series has a change-log bump:
`union(c.changeLog[*].addedSeriesIds) ⊇ c.seriesIds`.  Beyond 25 bumps the
25-entry cap can evict the bump of an old member (see the counterexample). -/
theorem C3_amended (c : CatStore.Category) (h : CatStore.ReachableCat c)
    (hv : c.version ≤ 25) :
    ∀ s ∈ c.seriesIds, ∃ e ∈ c.changeLog, s ∈ e.addedSeriesIds :=
  (CatStore.reachable_catInv h).2.2.2.2 hv

theorem C3_amended_witness :
    ∃ e ∈ (CatStore.createCategory CatStore.c3Input 0).changeLog,
      "s00" ∈ e.addedSeriesIds :=
  C3_amended (CatStore.createCategory CatStore.c3Input 0)
    ⟨[CatStore.CatOp.create CatStore.c3Input 0], rfl⟩
    (by norm_num [CatStore.createCategory]) "s00" (by decide)

/-! ## C5 : `EventCategoryAssignmentService.assignSeries`
(src/functions/src/services/feedRankingService.ts, second document:
eventCategoryAssignment)

The category-name comparison the code performs is
`a.localeCompare(b, undefined, { sensitivity: 'accent' }) === 0`: per
ECMA-402 `'accent'` sensitivity treats strings differing in base letters or
accents as UNEQUAL and only ignores case.  Modelled as equality of
lower-cased strings (accents preserved). -/

namespace Assign

/-- `localeCompare(..., { sensitivity: 'accent' }) === 0` : case-insensitive,
accent-SENSITIVE string equality. -/
def jsLocaleEqAccent (a b : String) : Bool :=
  jsToLower a == jsToLower b

/-- Strip the common Latin-1 diacritics (the fragment of full Unicode
folding this development needs). -/
def stripAccent (c : Char) : Char :=
  if c = 'é' ∨ c = 'è' ∨ c = 'ê' ∨ c = 'ë' then 'e'
  else if c = 'á' ∨ c = 'à' ∨ c = 'â' ∨ c = 'ä' then 'a'
  else if c = 'í' ∨ c = 'ì' ∨ c = 'î' ∨ c = 'ï' then 'i'
  else if c = 'ó' ∨ c = 'ò' ∨ c = 'ô' ∨ c = 'ö' then 'o'
  else if c = 'ú' ∨ c = 'ù' ∨ c = 'û' ∨ c = 'ü' then 'u'
  else if c = 'ç' then 'c'
  else if c = 'ñ' then 'n'
  else c

/-- The comparison as the spec describes it.  Modelled from the spec:
"Case-insensitive accent-insensitive name match"; both case and diacritics
are ignored. -/
def specNameEqIgnoringCaseAndAccents (a b : String) : Bool :=
  (jsToLower a).data.map stripAccent == (jsToLower b).data.map stripAccent

/-- The fields of an existing category the assignment logic reads
(`EventCategoryStore.listByHost` summaries). -/
structure CatSummary where
  id : String
  name : String
  sampleSeriesTitles : List String
deriving DecidableEq, Repr

/-- The series-document fields `assignSeries` reads. -/
structure SeriesDocData where
  title : String
  description : Option String
  tags : List String
  categoryId : Option String
  categoryName : Option String
deriving DecidableEq, Repr

inductive ClassifierAction where
  | useExisting
  | createNew
deriving DecidableEq, Repr

/-- The category classifier's parsed result. -/
structure ClassifierResult where
  categoryName : String
  action : ClassifierAction
deriving DecidableEq, Repr

/-- Store effects of one `assignSeries` run. -/
structure AssignEffects where
  matchedExistingId : Option String
  categoryId : String
  categoryName : String
  createdNew : Bool
  removedFrom : Option String
deriving DecidableEq, Repr

inductive AssignResult where
  | earlyReturn (categoryId categoryName : String)
  | performed (eff : AssignEffects)
deriving DecidableEq, Repr

/-- The classification-and-assignment part of `assignSeries` (after the
early return): trim the classifier's name, look for an accent-sensitive
case-insensitive match among the existing categories, create a category
only when there is no match AND the classifier said `create-new`, add the
series to the matched (else the new) category, and unlink a differing prior
category. -/
def classifyAndAssign (buildCatId : String → String → String)
    (hostId : String) (data : SeriesDocData) (existing : List CatSummary)
    (classification : ClassifierResult) : AssignEffects :=
  let normalizedName := jsTrim classification.categoryName
  let existingMatch := existing.find?
    (fun category => jsLocaleEqAccent category.name normalizedName)
  let categoryId := match existingMatch with
    | some m => m.id
    | none => buildCatId hostId normalizedName
  let categoryName := match existingMatch with
    | some m => m.name
    | none => normalizedName
  { matchedExistingId := existingMatch.map (·.id)
    categoryId := categoryId
    categoryName := categoryName
    createdNew :=
      existingMatch.isNone ∧ classification.action = .createNew
    removedFrom := match data.categoryId with
      | some old => if old ≠ "" ∧ old ≠ categoryId then some old else none
      | none => none }

/-- `EventCategoryAssignmentService.assignSeries` : keep an existing
assignment when `force` is not set, otherwise classify and assign. -/
def assignSeries (buildCatId : String → String → String) (hostId : String)
    (data : SeriesDocData) (existing : List CatSummary)
    (classification : ClassifierResult) (force : Bool) : AssignResult :=
  match data.categoryId, data.categoryName with
  | some cid, some cname =>
    if cid ≠ "" ∧ cname ≠ "" ∧ ¬force then .earlyReturn cid cname
    else .performed
      (classifyAndAssign buildCatId hostId data existing classification)
  | _, _ => .performed
      (classifyAndAssign buildCatId hostId data existing classification)

/-- The category the run attaches the series to, `none` on early return. -/
def AssignResult.targetId : AssignResult → Option String
  | .earlyReturn _ _ => none
  | .performed eff => some eff.categoryId

/-- The matched existing category, `none` on early return. -/
def AssignResult.matched : AssignResult → Option String
  | .earlyReturn _ _ => none
  | .performed eff => eff.matchedExistingId

def c5Existing : List CatSummary :=
  [{ id := "category:old", name := "Cafe", sampleSeriesTitles := [] }]

def c5Series : SeriesDocData :=
  { title := "Series", description := none, tags := [],
    categoryId := none, categoryName := none }

end Assign

/-- C5, counterexample: the name comparison distinguishes accents.  With an
existing host category `"Cafe"` and classifier result `"café"` declaring
`use-existing`, the spec's accent-insensitive comparison matches, yet the
code finds no match: the series is attached to a fresh category id instead
of `"category:old"` (and, because the declared action was `use-existing`,
no category document is created either). -/
theorem C5_counterexample :
    Assign.specNameEqIgnoringCaseAndAccents "Cafe" "café" = true
      ∧ Assign.assignSeries (fun _ _ => "category:new") "host:h"
          Assign.c5Series Assign.c5Existing
          { categoryName := "café", action := .useExisting } false
        = .performed
          { matchedExistingId := none
            categoryId := "category:new"
            categoryName := "café"
            createdNew := false
            removedFrom := none } := by
  constructor
  · decide
  · rfl

/-- C5, amended: the decision to reuse an existing category is made by a
name comparison that ignores letter case but DISTINGUISHES accents
(`localeCompare` with sensitivity `'accent'`), and — whenever the
classification path runs (`force = true`) — that match alone decides reuse,
regardless of whether the classifier declared `use-existing` or
`create-new`: both actions target the same category, and a matched category
is reused as the attachment target. -/
theorem C5_amended (buildCatId : String → String → String) (hostId : String)
    (data : Assign.SeriesDocData) (existing : List Assign.CatSummary)
    (name : String) (force : Bool) (hf : force = true) :
    ((Assign.assignSeries buildCatId hostId data existing
        { categoryName := name, action := .useExisting } force).targetId
      = (Assign.assignSeries buildCatId hostId data existing
        { categoryName := name, action := .createNew } force).targetId)
    ∧ (∀ act,
        (Assign.assignSeries buildCatId hostId data existing
            { categoryName := name, action := act } force).matched
          = (existing.find?
              (fun c => Assign.jsLocaleEqAccent c.name (jsTrim name))).map
                (·.id))
    ∧ (∀ act m,
        existing.find?
            (fun c => Assign.jsLocaleEqAccent c.name (jsTrim name)) = some m →
          (Assign.assignSeries buildCatId hostId data existing
              { categoryName := name, action := act } force).targetId
            = some m.id)
    ∧ Assign.jsLocaleEqAccent "CAFE" "cafe" = true
    ∧ Assign.jsLocaleEqAccent "café" "cafe" = false := by
  subst hf
  have hrun : ∀ act, Assign.assignSeries buildCatId hostId data existing
      { categoryName := name, action := act } true
      = .performed (Assign.classifyAndAssign buildCatId hostId data existing
          { categoryName := name, action := act }) := by
    intro act
    unfold Assign.assignSeries
    match data.categoryId, data.categoryName with
    | some cid, some cname => simp
    | some cid, none => simp
    | none, some cname => simp
    | none, none => simp
  refine ⟨?_, ?_, ?_, by decide, by decide⟩
  · rw [hrun, hrun]
    simp [Assign.AssignResult.targetId, Assign.classifyAndAssign]
  · intro act
    rw [hrun]
    simp [Assign.AssignResult.matched, Assign.classifyAndAssign]
  · intro act m hm
    rw [hrun]
    simp [Assign.AssignResult.targetId, Assign.classifyAndAssign, hm]

theorem C5_amended_witness :
    ((Assign.assignSeries (fun _ _ => "category:new") "host:h"
        Assign.c5Series Assign.c5Existing
        { categoryName := "Cafe", action := .useExisting } true).targetId
      = (Assign.assignSeries (fun _ _ => "category:new") "host:h"
        Assign.c5Series Assign.c5Existing
        { categoryName := "Cafe", action := .createNew } true).targetId) := by
  exact (C5_amended (fun _ _ => "category:new") "host:h" Assign.c5Series
    Assign.c5Existing "Cafe" true rfl).1

/-! ## C7 : page tokens (src/functions/src/api/routes.ts `parsePageOffset`;
src/functions/src/services/pinnedEventsService.ts `parsePageToken`;
src/unnamed/part_002 GET pinned-events route)

Node's `Buffer.from(token, 'base64').toString('utf8')` is total (it never
throws); both parsers therefore act on the token's decoded content, which is
what the functions below take as input. -/

namespace PageTok

/-- `parsePageOffset` (feed route): `Number(decoded)`; `NaN` or a negative
offset raises, surfaced as `INVALID_PAGE_TOKEN`. -/
def parsePageOffset (decoded : String) : Except String ℚ :=
  match jsNumber decoded with
  | none => .error "INVALID_PAGE_TOKEN"
  | some offset =>
    if offset < 0 then .error "INVALID_PAGE_TOKEN" else .ok offset

/-- The `/feed` handler's catch block: `INVALID_PAGE_TOKEN` becomes a 400
with body error `"Invalid page token"`. -/
def feedRouteTokenResponse (decoded : String) : Nat × String :=
  match parsePageOffset decoded with
  | .error _ => (400, "Invalid page token")
  | .ok _ => (200, "")

/-- `parsePageToken` (pinned-events service): no token means offset 0; a
decoded payload that starts with `\x7b` is the legacy format and resets to
offset 0; otherwise `Number.parseInt(decoded, 10)`, rejecting `NaN` and
negative offsets with `Error('Invalid page token')`. -/
def parsePageToken (token : Option String) : Except String Int :=
  match token with
  | none => .ok 0
  | some decoded =>
    if jsStartsWith (jsTrim decoded) "\x7b" then .ok 0
    else
      match jsParseInt10 decoded with
      | none => .error "Invalid page token"
      | some offset =>
        if offset < 0 then .error "Invalid page token" else .ok offset

/-- The pinned-events GET handler calls `getPinnedEvents` outside the inner
query-parameter try/catch, so the `Invalid page token` error reaches the
outer catch and is surfaced as a 500 with body error
`"Failed to fetch pinned events"`. -/
def pinnedRouteTokenResponse (decoded : String) : Nat × String :=
  match parsePageToken (some decoded) with
  | .error _ => (500, "Failed to fetch pinned events")
  | .ok _ => (200, "")

end PageTok

/-- C7, counterexample: the decoded content `"\x7b"` is non-numeric, yet the
pinned-events parser ACCEPTS it as offset 0 (legacy-token reset) — so it is
not the case that every non-numeric token is rejected; moreover a genuinely
rejected pinned-events token (decoded `"-1"`) yields a 500 with body error
`"Failed to fetch pinned events"`, not the claimed 400
`{error:"Invalid page token"}`. -/
theorem C7_counterexample :
    jsNumber "\x7b" = none
      ∧ PageTok.parsePageToken (some "\x7b") = .ok 0
      ∧ PageTok.pinnedRouteTokenResponse "\x7b" = (200, "")
      ∧ PageTok.parsePageToken (some "-1") = .error "Invalid page token"
      ∧ PageTok.pinnedRouteTokenResponse "-1"
          = (500, "Failed to fetch pinned events") := by
  refine ⟨by decide, rfl, rfl, rfl, rfl⟩

/-- C7, amended: the feed parser accepts exactly the tokens whose decoded
content `Number()`-parses to an offset ≥ 0 and rejects the rest with 400
`{error:"Invalid page token"}` (internally `INVALID_PAGE_TOKEN`); the
pinned-events parser first maps legacy `\x7b`-prefixed payloads to offset 0,
otherwise accepts exactly the tokens whose decoded content
`parseInt(_, 10)`-parses (prefix-numeric) to an offset ≥ 0, and its
rejection surfaces as a 500 with body error
`"Failed to fetch pinned events"`. -/
theorem C7_amended (decoded : String) :
    (∀ q : ℚ, PageTok.parsePageOffset decoded = .ok q
        ↔ (jsNumber decoded = some q ∧ 0 ≤ q))
      ∧ (PageTok.feedRouteTokenResponse decoded = (400, "Invalid page token")
          ↔ (jsNumber decoded = none
              ∨ ∃ q, jsNumber decoded = some q ∧ q < 0))
      ∧ (jsStartsWith (jsTrim decoded) "\x7b" = true →
          PageTok.parsePageToken (some decoded) = .ok 0)
      ∧ (jsStartsWith (jsTrim decoded) "\x7b" = false →
          ∀ n : Int, PageTok.parsePageToken (some decoded) = .ok n
            ↔ (jsParseInt10 decoded = some n ∧ 0 ≤ n))
      ∧ (PageTok.pinnedRouteTokenResponse decoded ≠ (200, "") →
          PageTok.pinnedRouteTokenResponse decoded
            = (500, "Failed to fetch pinned events")) := by
  refine ⟨?_, ?_, ?_, ?_, ?_⟩
  · intro q
    unfold PageTok.parsePageOffset
    cases h : jsNumber decoded with
    | none => simp
    | some x =>
      by_cases hx : x < 0
      · simp only [if_pos hx]
        constructor
        · intro hc; cases hc
        · rintro ⟨hq, hq0⟩
          cases hq
          exact absurd hx (not_lt.mpr hq0)
      · simp only [if_neg hx]
        constructor
        · rintro ⟨rfl⟩; exact ⟨rfl, not_lt.mp hx⟩
        · rintro ⟨hq, _⟩; cases hq; rfl
  · unfold PageTok.feedRouteTokenResponse PageTok.parsePageOffset
    cases h : jsNumber decoded with
    | none => simp
    | some x =>
      by_cases hx : x < 0
      · simp [hx]
      · simp only [if_neg hx]
        constructor
        · intro hc; simp at hc
        · rintro (hc | ⟨q, hq, hq0⟩)
          · cases hc
          · cases hq; exact absurd hq0 hx
  · intro h
    simp [PageTok.parsePageToken, h]
  · intro h n
    simp only [PageTok.parsePageToken, h, Bool.false_eq_true, if_false]
    cases hp : jsParseInt10 decoded with
    | none => simp
    | some m =>
      by_cases hm : m < 0
      · simp only [if_pos hm]
        constructor
        · intro hc; cases hc
        · rintro ⟨hq, hq0⟩
          cases hq
          exact absurd hm (not_lt.mpr hq0)
      · simp only [if_neg hm]
        constructor
        · rintro ⟨rfl⟩; exact ⟨rfl, not_lt.mp hm⟩
        · rintro ⟨hq, _⟩; cases hq; rfl
  · intro h
    unfold PageTok.pinnedRouteTokenResponse at h ⊢
    cases hp : PageTok.parsePageToken (some decoded) with
    | error e => rfl
    | ok v => rw [hp] at h; exact absurd rfl h

theorem C7_amended_witness :
    PageTok.parsePageToken (some "12") = .ok 12 :=
  ((C7_amended "12").2.2.2.1 (by decide) 12).mpr (by decide)

/-! ## C9 : pinned events (src/functions/src/services/pinnedEventsService.ts)

Store state: the `userPinnedEvents/{userId}/entries` and `.../series`
sub-collections plus the per-user `updatedAt` doc, as association lists.
Timestamps are `Int` milliseconds; the ISO-string round-trip
(`timestampToIso` / `Date.parse`) is modelled as the identity on millis.
Page tokens are modelled by their decoded content (see the C7 section). -/

namespace Pinned

def getA {α : Type} [DecidableEq κ] (l : List (κ × α)) (k : κ) : Option α :=
  (l.find? (fun p => p.1 = k)).map (·.2)

def setA {α : Type} [DecidableEq κ] (l : List (κ × α)) (k : κ) (v : α) :
    List (κ × α) :=
  if (l.find? (fun p => p.1 = k)).isSome
  then l.map (fun p => if p.1 = k then (k, v) else p)
  else l ++ [(k, v)]

def delA {α : Type} [DecidableEq κ] (l : List (κ × α)) (k : κ) :
    List (κ × α) :=
  l.filter (fun p => p.1 ≠ k)

/-- `sanitizeString` : trimmed non-empty string or null. -/
def sanStr (v : Option String) : Option String :=
  v.bind (fun s => if jsTrim s = "" then none else some (jsTrim s))

/-- A direct pin document under `userPinnedEvents/{u}/entries/{eventId}`. -/
structure EntryDoc where
  eventId : String
  title : Option String
  location : Option String
  tags : List String
  eventStartTime : Int
  eventEndTime : Option Int
  contentType : String
  source : Option String
  seriesId : Option String
  seriesTitle : Option String
  hostName : Option String
  pinnedAt : Int
deriving DecidableEq, Repr

/-- A series pin document under `userPinnedEvents/{u}/series/{seriesId}`. -/
structure SeriesPinDoc where
  seriesId : String
  title : Option String
  hostName : Option String
  tags : List String
  source : Option String
  pinnedAt : Int
deriving DecidableEq, Repr

structure PinStore where
  entries : List ((String × String) × EntryDoc)
  seriesPins : List ((String × String) × SeriesPinDoc)
  userDocs : List (String × Int)
deriving DecidableEq, Repr

/-- The fields `fetchEventMetadata` reads off an `events` document. -/
structure EventDocData where
  title : Option String
  location : Option String
  tags : List String
  startTime : Option Int
  endTime : Option Int
  contentType : Option String
  sourceId : Option String
  seriesId : Option String
deriving DecidableEq, Repr

/-- The fields the service reads off an `eventSeries` document. -/
structure SeriesDocLite where
  title : Option String
  hostName : Option String
  tags : List String
  sourceId : Option String
  upcomingOccurrences : List SeriesOccurrence
deriving DecidableEq, Repr

/-- The read-only context: the `events` and `eventSeries` collections. -/
structure Env where
  events : String → Option EventDocData
  series : String → Option SeriesDocLite

def isMockUser (userId : String) : Bool :=
  jsStartsWith userId "mock-"

structure EventMeta where
  title : Option String
  location : Option String
  tags : List String
  startTime : Int
  endTime : Option Int
  contentType : Option String
  source : Option String
  seriesId : Option String
  seriesTitle : Option String
  hostName : Option String
deriving DecidableEq, Repr

/-- `fetchEventMetadata` : resolve the event document and (best-effort) its
series metadata; a missing event or missing `startTime` throws. -/
def fetchEventMetadata (env : Env) (eventId : String) :
    Except String EventMeta :=
  match env.events eventId with
  | none => .error "Event not found"
  | some d =>
    match d.startTime with
    | none => .error "Event is missing startTime"
    | some startTs =>
      let fromSeries := d.seriesId.bind env.series
      .ok
        { title := sanStr d.title
          location := sanStr d.location
          tags := d.tags
          startTime := startTs
          endTime := d.endTime
          contentType := sanStr d.contentType
          source := sanStr d.sourceId
          seriesId := d.seriesId
          seriesTitle := fromSeries.bind (fun s => sanStr s.title)
          hostName := fromSeries.bind (fun s => sanStr s.hostName) }

/-- `fetchSeriesSummary` : the series pin denormalization source. -/
def fetchSeriesSummary (env : Env) (seriesId : String) :
    Except String SeriesPinDoc :=
  match env.series seriesId with
  | none => .error "Series not found"
  | some s =>
    .ok
      { seriesId := seriesId
        title := sanStr s.title
        hostName := sanStr s.hostName
        tags := s.tags
        source := sanStr s.sourceId
        pinnedAt := 0 }

/-- `setPinnedEventStatus` : validate ids, skip mock users, and either store
the denormalized pin snapshot (a failed metadata fetch is caught and the
function returns without any write) or delete the pin; any successful write
also refreshes the user doc's `updatedAt`. -/
def setPinnedEventStatus (env : Env) (st : PinStore) (userId eventId : String)
    (pinned : Bool) (now : Int) : Except String PinStore :=
  let tu := jsTrim userId
  let te := jsTrim eventId
  if tu = "" then .error "userId is required"
  else if te = "" then .error "eventId is required"
  else if isMockUser tu then .ok st
  else if pinned then
    match fetchEventMetadata env te with
    | .error _ => .ok st
    | .ok m =>
      .ok
        { st with
          entries := setA st.entries (tu, te)
            { eventId := te
              title := m.title
              location := m.location
              tags := m.tags
              eventStartTime := m.startTime
              eventEndTime := m.endTime
              contentType := m.contentType.getD "event"
              source := m.source
              seriesId := m.seriesId
              seriesTitle := m.seriesTitle
              hostName := m.hostName
              pinnedAt := now }
          userDocs := setA st.userDocs tu now }
  else
    .ok
      { st with
        entries := delA st.entries (tu, te)
        userDocs := setA st.userDocs tu now }

/-- `setPinnedSeriesStatus` : the series-pin analogue. -/
def setPinnedSeriesStatus (env : Env) (st : PinStore)
    (userId seriesId : String) (pinned : Bool) (now : Int) :
    Except String PinStore :=
  let tu := jsTrim userId
  let ts := jsTrim seriesId
  if tu = "" then .error "userId is required"
  else if ts = "" then .error "seriesId is required"
  else if isMockUser tu then .ok st
  else if pinned then
    match fetchSeriesSummary env ts with
    | .error _ => .ok st
    | .ok m =>
      .ok
        { st with
          seriesPins := setA st.seriesPins (tu, ts) { m with pinnedAt := now }
          userDocs := setA st.userDocs tu now }
  else
    .ok
      { st with
        seriesPins := delA st.seriesPins (tu, ts)
        userDocs := setA st.userDocs tu now }

/-- `applyPinToggle` : `metadata.active` (default true) decides pin/unpin;
`event-series` content targets the series pins. -/
def applyPinToggle (env : Env) (st : PinStore) (userId contentId : String)
    (contentType : String) (active : Option Bool) (now : Int) :
    Except String PinStore :=
  let activeValue := active.getD true
  if contentType = "event-series"
  then setPinnedSeriesStatus env st userId contentId activeValue now
  else setPinnedEventStatus env st userId contentId activeValue now

structure PinnedEventsQueryOptions where
  mode : Option Unit := none
  start : Option Int := none
  stop : Option Int := none
  pageSize : Option ℚ := none
  pageToken : Option String := none

/-- `addUtcDays` : whole UTC days in milliseconds. -/
def addUtcDays (t : Int) (days : Int) : Int :=
  t + days * 86400000

/-- `buildWindow` : `mode=today` is the display-time-zone day (the start of
day is supplied by the caller as `sodToday`); otherwise an explicit
`[start, end)` pair with `end > start`, defaulting to `[now, now + 30d)`. -/
def buildWindow (options : PinnedEventsQueryOptions) (now : Int)
    (sodToday : Int) : Except String (Int × Int) :=
  match options.mode with
  | some _ => .ok (sodToday, addUtcDays sodToday 1)
  | none =>
    if options.start.isSome ∨ options.stop.isSome then
      let startInput := options.start.getD now
      let endInput := options.stop.getD (addUtcDays startInput 30)
      if endInput ≤ startInput then .error "end must be greater than start"
      else .ok (startInput, endInput)
    else .ok (now, addUtcDays now 30)

/-- `clampPageSize` : default 10, clamped to `1..30` (`0` is falsy in JS and
falls back to the default). -/
def clampPageSize (pageSize : Option ℚ) : Nat :=
  match pageSize with
  | none => 10
  | some q => if q = 0 then 10 else min (max (⌊q⌋.toNat) 1) 30

/-- The entry shape `getPinnedEvents` returns. -/
structure PinnedEventEntry where
  eventId : String
  seriesId : Option String
  seriesTitle : Option String
  hostName : Option String
  title : Option String
  startTime : Option Int
  endTime : Option Int
  location : Option String
  tags : List String
  contentType : Option String
  source : Option String
  pinnedAt : Option Int
  derived : Bool
deriving DecidableEq, Repr

/-- `mapPinnedEvent` on a direct entry document. -/
def mapPinnedEvent (d : EntryDoc) : PinnedEventEntry :=
  { eventId := d.eventId
    seriesId := sanStr d.seriesId
    seriesTitle := sanStr d.seriesTitle
    hostName := sanStr d.hostName
    title := sanStr d.title
    startTime := some d.eventStartTime
    endTime := d.eventEndTime
    location := sanStr d.location
    tags := d.tags
    contentType := sanStr (some d.contentType)
    source := sanStr d.source
    pinnedAt := some d.pinnedAt
    derived := false }

/-- `toMillis` with its fallback. -/
def toMillis (v : Option Int) (fallback : Int) : Int :=
  v.getD fallback

/-- `compareEntries` : `(startTime ASC w/ missing last, pinnedAt DESC,
eventId lexical ASC)` as the total preorder the stable sort uses. -/
def entryLE (a b : PinnedEventEntry) : Prop :=
  let aStart := toMillis a.startTime 9007199254740991
  let bStart := toMillis b.startTime 9007199254740991
  aStart < bStart
    ∨ (aStart = bStart
        ∧ (toMillis b.pinnedAt 0 < toMillis a.pinnedAt 0
            ∨ (toMillis a.pinnedAt 0 = toMillis b.pinnedAt 0
                ∧ strLexLe a.eventId b.eventId = true)))

instance : DecidableRel entryLE := fun a b => by
  unfold entryLE
  infer_instance

/-- `expandSeriesEntries` : derive synthetic pinned entries from each pinned
series' upcoming occurrences inside the window, suppressing event ids that
already have a direct pin. -/
def expandSeriesEntries (env : Env)
    (pins : List SeriesPinDoc) (windowStart windowEnd : Int)
    (existingEventIds : List String) : List PinnedEventEntry :=
  pins.flatMap (fun pin =>
    match env.series pin.seriesId with
    | none => []
    | some data =>
      let seriesTitle := (sanStr data.title).orElse (fun _ => pin.title)
      let hostName := (sanStr data.hostName).orElse (fun _ => pin.hostName)
      let sourceId := sanStr data.sourceId
      (data.upcomingOccurrences.filter (fun occ =>
          occ.eventId ∉ existingEventIds
            ∧ windowStart ≤ occ.startTime ∧ occ.startTime < windowEnd)).map
        (fun occ =>
          { eventId := occ.eventId
            seriesId := some pin.seriesId
            seriesTitle := seriesTitle
            hostName := hostName
            title := (sanStr (some occ.title)).orElse (fun _ => seriesTitle)
            startTime := some occ.startTime
            endTime := occ.endTime
            location := sanStr occ.location
            tags := if occ.tags = [] then data.tags else occ.tags
            contentType := some "event"
            source := sourceId
            pinnedAt := some pin.pinnedAt
            derived := true }))

structure PinnedEventsQueryResult where
  events : List PinnedEventEntry
  nextPageToken : Option String
  windowStart : Int
  windowEnd : Int
  updatedAt : Option Int
deriving DecidableEq, Repr

/-- `encodePageToken` : tokens are modelled by their decoded content. -/
def encodePageToken (offset : Int) : String :=
  toString offset

/-- `getPinnedEvents` : build the window, clamp the page size, parse the
page token, short-circuit mock users with an empty result, otherwise read
the direct entries in the window (ordered by `(eventStartTime, eventId)`),
expand the pinned series, merge, stable-sort by `compareEntries` and
offset-paginate. -/
def getPinnedEvents (env : Env) (st : PinStore) (userId : String)
    (options : PinnedEventsQueryOptions) (now : Int) (sodToday : Int) :
    Except String PinnedEventsQueryResult := do
  let tu := jsTrim userId
  if tu = "" then throw "userId is required"
  let (wStart, wEnd) ← buildWindow options now sodToday
  let pageSize := clampPageSize options.pageSize
  let offset ← PageTok.parsePageToken options.pageToken
  if isMockUser tu then
    return { events := []
             nextPageToken := none
             windowStart := wStart
             windowEnd := wEnd
             updatedAt := none }
  let directDocs :=
    ((st.entries.filter (fun p =>
        p.1.1 = tu ∧ wStart ≤ p.2.eventStartTime
          ∧ p.2.eventStartTime < wEnd)).map (·.2)).insertionSort
      (fun a b => a.eventStartTime < b.eventStartTime
        ∨ (a.eventStartTime = b.eventStartTime
            ∧ strLexLe a.eventId b.eventId = true))
  let directEntries := directDocs.map mapPinnedEvent
  let directEventIds := directEntries.map (·.eventId)
  let seriesPins := (st.seriesPins.filter (fun p => p.1.1 = tu)).map (·.2)
  let seriesEntries :=
    expandSeriesEntries env seriesPins wStart wEnd directEventIds
  let combined := (directEntries ++ seriesEntries).insertionSort entryLE
  let paginated := (combined.drop offset.toNat).take pageSize
  let nextPageToken :=
    if offset.toNat + pageSize < combined.length
    then some (encodePageToken (offset + pageSize))
    else none
  return { events := paginated
           nextPageToken := nextPageToken
           windowStart := wStart
           windowEnd := wEnd
           updatedAt := getA st.userDocs tu }

theorem isMock_ne_empty {s : String} (h : isMockUser s = true) : s ≠ "" := by
  intro he
  rw [he] at h
  exact absurd h (by decide)

end Pinned

theorem dropWhile_append_of_fixed {α : Type} {p : α → Bool} :
    ∀ (xs : List α) {ys : List α}, ys.dropWhile p = ys →
      (xs ++ ys).dropWhile p = xs.dropWhile p ++ ys := by
  intro xs
  induction xs with
  | nil => intro ys h; simpa using h
  | cons x xs ih =>
    intro ys h
    by_cases hx : p x
    · simp [List.dropWhile_cons, hx, ih h]
    · simp [List.dropWhile_cons, hx]

/-- Trimming preserves a whitespace-free prefix such as `"mock-"`. -/
theorem jsTrim_keeps_mock (s : String)
    (h : jsStartsWith s "mock-" = true) :
    jsStartsWith (jsTrim s) "mock-" = true := by
  have hpre : "mock-".data <+: s.data := by
    simpa [jsStartsWith, List.isPrefixOf_iff_prefix] using h
  obtain ⟨r, hr⟩ := hpre
  have hdata : s.data = 'm' :: 'o' :: 'c' :: 'k' :: '-' :: r := by
    rw [← hr]; rfl
  have hstep1 : s.data.dropWhile jsIsWS = s.data := by
    rw [hdata]
    simp [List.dropWhile_cons, jsIsWS]
  have hfix : (['-', 'k', 'c', 'o', 'm'] : List Char).dropWhile jsIsWS
      = ['-', 'k', 'c', 'o', 'm'] := by decide
  have hstep2 : s.data.reverse.dropWhile jsIsWS
      = r.reverse.dropWhile jsIsWS ++ ['-', 'k', 'c', 'o', 'm'] := by
    have : s.data.reverse = r.reverse ++ ['-', 'k', 'c', 'o', 'm'] := by
      rw [hdata]
      simp
    rw [this, dropWhile_append_of_fixed _ hfix]
  rw [jsStartsWith, jsTrim]
  simp only [hstep1, hstep2]
  rw [List.isPrefixOf_iff_prefix]
  refine ⟨(r.reverse.dropWhile jsIsWS).reverse, ?_⟩
  simp

theorem jsStartsWith_mock_ne_empty {s : String}
    (h : jsStartsWith s "mock-" = true) : s ≠ "" := by
  intro he
  rw [he] at h
  exact absurd h (by decide)

/-- C9: for every userId beginning with `"mock-"`, `setPinnedEventStatus`
and `setPinnedSeriesStatus` return without writing any pinned-event state,
and `getPinnedEvents` (whenever its window/token preprocessing succeeds)
returns an empty events list with `nextPageToken` and `updatedAt` null;
none of the three operations changes the store. -/
theorem C9_theorem :
    (∀ (env : Pinned.Env) (st : Pinned.PinStore) (u e : String)
        (pinned : Bool) (now : Int),
        jsStartsWith u "mock-" = true → jsTrim e ≠ "" →
        Pinned.setPinnedEventStatus env st u e pinned now = .ok st)
      ∧ (∀ (env : Pinned.Env) (st : Pinned.PinStore) (u sid : String)
          (pinned : Bool) (now : Int),
          jsStartsWith u "mock-" = true → jsTrim sid ≠ "" →
          Pinned.setPinnedSeriesStatus env st u sid pinned now = .ok st)
      ∧ (∀ (env : Pinned.Env) (st : Pinned.PinStore) (u : String)
          (opts : Pinned.PinnedEventsQueryOptions) (now sod : Int)
          (w : Int × Int) (off : Int),
          jsStartsWith u "mock-" = true →
          Pinned.buildWindow opts now sod = .ok w →
          PageTok.parsePageToken opts.pageToken = .ok off →
          Pinned.getPinnedEvents env st u opts now sod
            = .ok { events := []
                    nextPageToken := none
                    windowStart := w.1
                    windowEnd := w.2
                    updatedAt := none }) := by
  have hmock : ∀ u : String, jsStartsWith u "mock-" = true →
      Pinned.isMockUser (jsTrim u) = true := by
    intro u hu
    exact jsTrim_keeps_mock u hu
  have hne : ∀ u : String, jsStartsWith u "mock-" = true →
      ¬(jsTrim u = "") :=
    fun u hu => jsStartsWith_mock_ne_empty (jsTrim_keeps_mock u hu)
  refine ⟨?_, ?_, ?_⟩
  · intro env st u e pinned now hu he
    simp [Pinned.setPinnedEventStatus, hne u hu, he, hmock u hu]
  · intro env st u sid pinned now hu hs
    simp [Pinned.setPinnedSeriesStatus, hne u hu, hs, hmock u hu]
  · intro env st u opts now sod w off hu hw hoff
    obtain ⟨ws, we⟩ := w
    simp only [Pinned.getPinnedEvents, hne u hu, hmock u hu, hw, hoff,
      if_false, if_true, ite_false, ite_true, eq_self_iff_true]
    rfl

def pinnedEnv0 : Pinned.Env :=
  { events := fun _ => none, series := fun _ => none }

def pinnedSt0 : Pinned.PinStore :=
  { entries := [], seriesPins := [], userDocs := [] }

theorem C9_theorem_witness :
    Pinned.setPinnedEventStatus pinnedEnv0 pinnedSt0 "mock-1" "e1" true 0
        = .ok pinnedSt0
      ∧ Pinned.setPinnedSeriesStatus pinnedEnv0 pinnedSt0 "mock-1" "s1"
          false 0 = .ok pinnedSt0
      ∧ Pinned.getPinnedEvents pinnedEnv0 pinnedSt0 "mock-1" {} 0 0
          = .ok { events := []
                  nextPageToken := none
                  windowStart := 0
                  windowEnd := 2592000000
                  updatedAt := none } := by
  refine ⟨?_, ?_, ?_⟩
  · exact C9_theorem.1 pinnedEnv0 pinnedSt0 "mock-1" "e1" true 0
      (by decide) (by decide)
  · exact C9_theorem.2.1 pinnedEnv0 pinnedSt0 "mock-1" "s1" false 0
      (by decide) (by decide)
  · exact C9_theorem.2.2 pinnedEnv0 pinnedSt0 "mock-1" {} 0 0
      (0, 2592000000) 0 (by decide) rfl rfl

/-! ## C4 / C10 : category bundles
(src/functions/src/services/categoryBundleService.ts,
src/unnamed/part_011 `CategoryBundleStateService`,
src/functions/src/api/interactions.ts `requireBundleState`)

JS runtime values for the metadata validation are modelled by `JSValue`
(`num` carries a rational, so `Number.isFinite` is always true on it —
`NaN`/`Infinity` are outside the model).  Category documents reuse the
`CatStore` model; `getMany` stamps the document id. -/

namespace Bundles

inductive JSValue where
  | undef
  | null
  | bool (b : Bool)
  | num (q : ℚ)
  | str (s : String)
  | arr (l : List JSValue)
  | obj (fields : List (String × JSValue))

/-- Property access on an object: absent keys read as `undefined`. -/
def jsGet (fields : List (String × JSValue)) (k : String) : JSValue :=
  match fields.find? (fun p => p.1 = k) with
  | some p => p.2
  | none => .undef

structure BundleState where
  categoryId : String
  version : ℚ
deriving DecidableEq, Repr

/-- `requireBundleState` : `metadata` and `metadata.bundleState` must be
plain objects, `categoryId` a non-empty (after trim) string and `version`
a finite number ≥ 0 — zero included. -/
def requireBundleState (metadata : JSValue) : Except String BundleState :=
  match metadata with
  | .obj fields =>
    match jsGet fields "bundleState" with
    | .obj sfields =>
      match jsGet sfields "categoryId" with
      | .str cid =>
        if jsTrim cid = ""
        then .error "metadata.bundleState.categoryId must be a non-empty string"
        else
          match jsGet sfields "version" with
          | .num v =>
            if v < 0 then .error "metadata.bundleState.version must be >= 0"
            else .ok { categoryId := jsTrim cid, version := v }
          | _ => .error "metadata.bundleState.version must be a finite number"
      | _ => .error "metadata.bundleState.categoryId must be a non-empty string"
    | _ => .error "metadata.bundleState must be an object with categoryId and version"
  | _ => .error "metadata.bundleState must be provided for event-category-bundle interactions"

/-- A `users/{u}/categoryBundles/{categoryId}` document. -/
structure BState where
  lastSeenVersion : ℚ
  lastSeenAt : Option Int
deriving DecidableEq, Repr

/-- `CategoryBundleStateService.markSeen` : empty ids are ignored; otherwise
the merge-set stores `lastSeenVersion := version` and refreshes
`lastSeenAt`. -/
def markSeen (db : String → String → Option BState)
    (userId categoryId : String) (version : ℚ) (now : Int) :
    String → String → Option BState :=
  if userId = "" ∨ categoryId = "" then db
  else fun u c =>
    if u = userId ∧ c = categoryId
    then some { lastSeenVersion := version, lastSeenAt := some now }
    else db u c

/-- `state && state.lastSeenVersion > 0 ? state.lastSeenVersion : null`
(inline in `buildBundles`). -/
def resolveLastSeenVersion (state : Option BState) : Option ℚ :=
  match state with
  | some s => if 0 < s.lastSeenVersion then some s.lastSeenVersion else none
  | none => none

structure FeedHost where
  id : Option String
  name : Option String
  organizer : Option String
deriving DecidableEq, Repr

structure FeedCatRef where
  id : Option String
  name : Option String
  slug : Option String
deriving DecidableEq, Repr

structure FeedOcc where
  eventId : String
  startTime : Int
deriving DecidableEq, Repr

/-- The fields of `FeedSeriesData` the bundler reads. -/
structure FeedSeries where
  id : String
  title : Option String
  host : Option FeedHost
  category : FeedCatRef
  nextOccurrence : Option FeedOcc
  upcomingOccurrences : List FeedOcc
  tags : List String
deriving DecidableEq, Repr

structure BundleStats where
  views : ℚ
  likes : ℚ
  shares : ℚ
  bookmarks : ℚ
deriving DecidableEq, Repr

structure CategoryBundleMetadata where
  bundleId : String
  categoryId : String
  categoryName : String
  categorySlug : String
  host : FeedHost
  totalSeriesCount : Nat
  newSeriesCount : Nat
  seriesIds : List String
  newSeriesIds : List String
  displaySeries : List FeedSeries
  allSeries : List FeedSeries
  version : ℚ
  lastSeenVersion : Option ℚ
  isNewCategory : Bool
  bundleStateCategoryId : String
  bundleStateVersion : ℚ
deriving DecidableEq, Repr

structure BItemMeta where
  series : Option FeedSeries
  bundle : Option CategoryBundleMetadata
deriving DecidableEq, Repr

/-- The ranker-facing `ContentItem` shape the bundler produces/consumes. -/
structure BItem where
  id : String
  title : String
  contentType : String
  tags : List String
  embedding : Option (List ℚ)
  createdAt : Int
  stats : BundleStats
  metadata : BItemMeta
deriving DecidableEq, Repr

structure SeriesCandidate where
  contentItem : BItem
  series : FeedSeries
deriving DecidableEq, Repr

structure CategoryGroup where
  key : String
  categoryId : String
  hostId : String
  host : FeedHost
  items : List SeriesCandidate
deriving DecidableEq, Repr

/-- One `groupCandidates` iteration: route the candidate to its
`(hostId, categoryId)` group, or to the unbundled list when either key is
missing or empty-string (falsy). -/
def groupStep (acc : List BItem × List CategoryGroup)
    (candidate : SeriesCandidate) : List BItem × List CategoryGroup :=
  match candidate.series.category.id,
      candidate.series.host.bind (·.id) with
  | some cid, some hid =>
    if cid = "" ∨ hid = "" then
      (acc.1 ++ [candidate.contentItem], acc.2)
    else if ((acc.2).find? (fun g => g.key = hid ++ "__" ++ cid)).isSome then
      (acc.1, (acc.2).map (fun g =>
        if g.key = hid ++ "__" ++ cid
        then { g with items := g.items ++ [candidate] }
        else g))
    else
      (acc.1, acc.2 ++
        [{ key := hid ++ "__" ++ cid, categoryId := cid, hostId := hid
           host := (candidate.series.host).getD
             { id := none, name := none, organizer := none }
           items := [candidate] }])
  | _, _ => (acc.1 ++ [candidate.contentItem], acc.2)

/-- `groupCandidates` : partition candidates by `(hostId, categoryId)`
(`Map` iteration keeps first-insertion order). -/
def groupCandidates (candidates : List SeriesCandidate) :
    List BItem × List CategoryGroup :=
  candidates.foldl groupStep ([], [])

/-- `EventCategoryStore.getMany` : resolve category documents, stamping the
document id onto the result. -/
def getCategory (catDb : String → Option CatStore.Category) (cid : String) :
    Option CatStore.Category :=
  (catDb cid).map (fun c => { c with id := cid })

def minList : List Int → Option Int :=
  List.foldl
    (fun acc t =>
      match acc with
      | none => some t
      | some m => some (min m t)) none

/-- `getFirstOccurrenceTime` : earliest of `nextOccurrence` and the
upcoming occurrences, `none` when there is none. -/
def firstOccTime (s : FeedSeries) : Option Int :=
  minList ((s.nextOccurrence.toList ++ s.upcomingOccurrences).map
    (·.startTime))

/-- The `loadFullSeries` sort order: earliest first occurrence first,
series without occurrences last. -/
def seriesOrderLE (a b : FeedSeries) : Prop :=
  match firstOccTime a, firstOccTime b with
  | none, none => True
  | none, some _ => False
  | some _, none => True
  | some x, some y => x ≤ y

instance : DecidableRel seriesOrderLE := fun a b => by
  unfold seriesOrderLE
  exact match firstOccTime a, firstOccTime b with
  | none, none => inferInstanceAs (Decidable True)
  | none, some _ => inferInstanceAs (Decidable False)
  | some _, none => inferInstanceAs (Decidable True)
  | some x, some y => inferInstanceAs (Decidable (x ≤ y))

/-- `isSeriesWithinWindow`. -/
def withinWindow (s : FeedSeries) (wStart wEnd : Option Int) : Bool :=
  match wStart, wEnd with
  | none, none => true
  | _, _ =>
    let occs := s.nextOccurrence.toList ++ s.upcomingOccurrences
    occs.any (fun occ =>
      (wStart.all (fun w => decide (w ≤ occ.startTime)))
        ∧ (wEnd.all (fun w => decide (occ.startTime < w))))

/-- `loadFullSeries` : hydrate the category's full series set (window
candidates first, then fetched missing ids), filter by the window and sort
by earliest occurrence. -/
def loadFullSeries (group : CategoryGroup) (category : CatStore.Category)
    (seriesDb : String → Option FeedSeries) (wStart wEnd : Option Int) :
    List FeedSeries :=
  let existing0 := group.items.foldl
    (fun acc item => Pinned.setA acc item.series.id item.series)
    ([] : List (String × FeedSeries))
  let targetIds :=
    if category.seriesIds ≠ [] then category.seriesIds
    else existing0.map (·.1)
  let missingIds := targetIds.filter
    (fun id => (Pinned.getA existing0 id).isNone)
  let hydrated := missingIds.foldl
    (fun acc id =>
      match seriesDb id with
      | some s => Pinned.setA acc id { s with id := id }
      | none => acc) existing0
  let allSeries := (hydrated.map (·.2)).filter
    (fun s => withinWindow s wStart wEnd)
  allSeries.insertionSort seriesOrderLE

/-- `computeNewSeriesIds` : first-time viewers get the whole set; returning
viewers get the union of change-log additions past their last seen version,
falling back to the whole set when that union is empty but the version
advanced. -/
def computeNewSeriesIds (category : CatStore.Category)
    (currentSeriesIds : List String) (version : ℚ) (lastSeen : Option ℚ) :
    List String :=
  match lastSeen with
  | none => jsSetDedup currentSeriesIds
  | some cutoff =>
    let newIds := jsSetDedup
      ((category.changeLog.filter (fun e => cutoff < e.version)).flatMap
        (·.addedSeriesIds))
    if newIds = [] ∧ cutoff < version then jsSetDedup currentSeriesIds
    else newIds

/-- `averageVectors` over the first vector's dimension. -/
def averageVectors (vectors : List (List ℚ)) : List ℚ :=
  match vectors with
  | [] => []
  | v0 :: _ =>
    (List.range v0.length).map
      (fun i =>
        (vectors.foldl (fun acc v => acc + v.getD i 0) 0)
          / (vectors.length : ℚ))

/-- `mergeContentItems` : latest `createdAt`, summed stats, deduplicated tag
union, averaged embeddings; id/title/contentType/metadata from the first
group item. -/
def mergeContentItems (items : List SeriesCandidate) (now : Int) : BItem :=
  let createdAt := (items.foldl
    (fun acc item =>
      match acc with
      | none => some item.contentItem.createdAt
      | some m =>
        if m < item.contentItem.createdAt then some item.contentItem.createdAt
        else some m) none).getD now
  let stats := items.foldl
    (fun acc item =>
      { views := acc.views + item.contentItem.stats.views
        likes := acc.likes + item.contentItem.stats.likes
        shares := acc.shares + item.contentItem.stats.shares
        bookmarks := acc.bookmarks + item.contentItem.stats.bookmarks })
    { views := 0, likes := 0, shares := 0, bookmarks := 0 }
  let tags := jsSetDedup (items.flatMap (·.contentItem.tags))
  let embeddings := items.filterMap (·.contentItem.embedding)
  { id := ((items.head?).map (·.contentItem.id)).getD
      ("bundle:" ++ toString now)
    title := ((items.head?).map (·.contentItem.title)).getD
      "Community programming"
    contentType := ((items.head?).map (·.contentItem.contentType)).getD
      "event-series"
    tags := tags
    embedding := if embeddings = [] then none
                 else some (averageVectors embeddings)
    createdAt := createdAt
    stats := stats
    metadata := ((items.head?).map (·.contentItem.metadata)).getD
      { series := none, bundle := none } }

/-- `buildBundleTitle` : `"{category} · {host}"`, host name falling back to
the organizer, both with JS falsy (empty-string) semantics. -/
def buildBundleTitle (categoryName : String) (host : FeedHost) : String :=
  let normalizedCategory :=
    if categoryName = "" then "Community programming" else categoryName
  match host.name.orElse (fun _ => host.organizer) with
  | none => normalizedCategory
  | some hn =>
    if hn = "" then normalizedCategory else normalizedCategory ++ " · " ++ hn

/-- `buildBundleItem` : hydrate the full set; skip when the set is empty, or
when the user has seen the category before and nothing new exists;
otherwise emit the synthetic bundle content item. -/
def buildBundleItem (group : CategoryGroup) (category : CatStore.Category)
    (lastSeen : Option ℚ) (seriesDb : String → Option FeedSeries)
    (wStart wEnd : Option Int) (now : Int) : Option BItem :=
  let fullSeries := loadFullSeries group category seriesDb wStart wEnd
  if fullSeries = [] then none
  else
    let seriesIds := fullSeries.map (·.id)
    let totalSeriesCount := seriesIds.length
    let version := category.version
    let newSeriesIds := computeNewSeriesIds category seriesIds version lastSeen
    let isNewCategory := lastSeen = none
    if ¬isNewCategory ∧ newSeriesIds = [] then none
    else
      let displaySeriesIds :=
        if isNewCategory then seriesIds else newSeriesIds
      let displaySeries0 := fullSeries.filter
        (fun s => s.id ∈ displaySeriesIds)
      let displaySeries :=
        if displaySeries0 = [] then fullSeries else displaySeries0
      let contentItem := mergeContentItems group.items now
      let metadata : CategoryBundleMetadata :=
        { bundleId := "bundle:" ++ group.categoryId
          categoryId := category.id
          categoryName := category.name
          categorySlug := category.slug
          host := group.host
          totalSeriesCount := totalSeriesCount
          newSeriesCount := displaySeries.length
          seriesIds := seriesIds
          newSeriesIds := newSeriesIds
          displaySeries := displaySeries
          allSeries := fullSeries
          version := version
          lastSeenVersion := lastSeen
          isNewCategory := isNewCategory
          bundleStateCategoryId := category.id
          bundleStateVersion := version }
      some
        { contentItem with
          id := "bundle:" ++ category.id
          title := buildBundleTitle category.name group.host
          contentType := "event-category-bundle"
          metadata := { contentItem.metadata with bundle := some metadata } }

/-- The user's bundle state for a category: `getStates` returns nothing
without a (non-empty) userId. -/
def userStateFor (userId : Option String)
    (stateDb : String → String → Option BState) (categoryId : String) :
    Option BState :=
  match userId with
  | some u => if u = "" then none else stateDb u categoryId
  | none => none

def bundleStep (userId : Option String)
    (catDb : String → Option CatStore.Category)
    (stateDb : String → String → Option BState)
    (seriesDb : String → Option FeedSeries)
    (wStart wEnd : Option Int) (now : Int)
    (results : List BItem) (group : CategoryGroup) : List BItem :=
  match getCategory catDb group.categoryId with
  | none => results ++ group.items.map (·.contentItem)
  | some category =>
    let state := userStateFor userId stateDb group.categoryId
    let lastSeen := resolveLastSeenVersion state
    match buildBundleItem group category lastSeen seriesDb wStart wEnd
        now with
    | some item => results ++ [item]
    | none => results

/-- `CategoryBundleService.buildBundles` : group the candidates, resolve
category documents and the user's per-category last-seen state, then emit a
bundle item per group (falling back to the raw series items when the
category document is missing). -/
def buildBundles (userId : Option String)
    (candidates : List SeriesCandidate)
    (catDb : String → Option CatStore.Category)
    (stateDb : String → String → Option BState)
    (seriesDb : String → Option FeedSeries)
    (wStart wEnd : Option Int) (now : Int) : List BItem :=
  let grouped := groupCandidates candidates
  let unbundled := grouped.1
  match grouped.2 with
  | [] => unbundled
  | groups =>
    groups.foldl
      (bundleStep userId catDb stateDb seriesDb wStart wEnd now) unbundled

end Bundles

namespace Bundles

theorem getCategory_id {catDb : String → Option CatStore.Category}
    {cid : String} {c : CatStore.Category}
    (h : getCategory catDb cid = some c) : c.id = cid := by
  unfold getCategory at h
  cases hd : catDb cid with
  | none => rw [hd] at h; cases h
  | some c0 =>
    rw [hd] at h
    simp only [Option.map_some', Option.some_inj] at h
    rw [← h]

theorem computeNewSeriesIds_caught_up (category : CatStore.Category)
    (ids : List String) (v : ℚ)
    (hentries : ∀ e ∈ category.changeLog, e.version ≤ v)
    (hver : category.version = v) :
    computeNewSeriesIds category ids category.version (some v) = [] := by
  unfold computeNewSeriesIds
  have hfilter : category.changeLog.filter (fun e => decide (v < e.version))
      = [] := by
    rw [List.filter_eq_nil_iff]
    intro e he
    simpa using not_lt.mpr (hentries e he)
  simp [hfilter, jsSetDedup, jsSetDedup.go, hver, lt_irrefl]

theorem buildBundleItem_caught_up (group : CategoryGroup)
    (category : CatStore.Category) (v : ℚ)
    (seriesDb : String → Option FeedSeries) (wS wE : Option Int) (now : Int)
    (hver : category.version = v)
    (hentries : ∀ e ∈ category.changeLog, e.version ≤ v) :
    buildBundleItem group category (some v) seriesDb wS wE now = none := by
  unfold buildBundleItem
  by_cases hfs : loadFullSeries group category seriesDb wS wE = []
  · simp [hfs]
  · have hnew := computeNewSeriesIds_caught_up category
      ((loadFullSeries group category seriesDb wS wE).map (·.id)) v
      hentries hver
    simp [hfs, hnew]

theorem buildBundleItem_meta_id (group : CategoryGroup)
    (category : CatStore.Category) (lastSeen : Option ℚ)
    (seriesDb : String → Option FeedSeries) (wS wE : Option Int) (now : Int)
    (item : BItem) (b : CategoryBundleMetadata)
    (hsome : buildBundleItem group category lastSeen seriesDb wS wE now
      = some item)
    (hb : item.metadata.bundle = some b) :
    b.bundleStateCategoryId = category.id := by
  unfold buildBundleItem at hsome
  by_cases hfs : loadFullSeries group category seriesDb wS wE = []
  · rw [if_pos hfs] at hsome; cases hsome
  · rw [if_neg hfs] at hsome
    by_cases hskip : ¬(lastSeen = none)
        ∧ computeNewSeriesIds category
            ((loadFullSeries group category seriesDb wS wE).map (·.id))
            category.version lastSeen = []
    · rw [if_pos hskip] at hsome; cases hsome
    · rw [if_neg hskip] at hsome
      simp only [Option.some_inj] at hsome
      rw [← hsome] at hb
      simp only [Option.some_inj] at hb
      rw [← hb]

theorem mem_foldl_of_step {β γ : Type} (step : List γ → β → List γ)
    (C : β → γ → Prop)
    (hstep : ∀ res b x, x ∈ step res b → x ∈ res ∨ C b x) :
    ∀ (bs : List β) (init : List γ) (x : γ),
      x ∈ bs.foldl step init → x ∈ init ∨ ∃ b ∈ bs, C b x := by
  intro bs
  induction bs with
  | nil => intro init x hx; exact Or.inl hx
  | cons b bs ih =>
    intro init x hx
    rcases ih (step init b) x hx with h | ⟨b', hb', hC⟩
    · rcases hstep init b x h with h' | hC
      · exact Or.inl h'
      · exact Or.inr ⟨b, List.mem_cons_self _ _, hC⟩
    · exact Or.inr ⟨b', List.mem_cons_of_mem _ hb', hC⟩

theorem bundleStep_mem (userId : Option String)
    (catDb : String → Option CatStore.Category)
    (stateDb : String → String → Option BState)
    (seriesDb : String → Option FeedSeries) (wS wE : Option Int) (now : Int)
    (res : List BItem) (g : CategoryGroup) (x : BItem)
    (hx : x ∈ bundleStep userId catDb stateDb seriesDb wS wE now res g) :
    x ∈ res
      ∨ (∃ it ∈ g.items, x = it.contentItem)
      ∨ (∃ cat', getCategory catDb g.categoryId = some cat'
          ∧ buildBundleItem g cat'
              (resolveLastSeenVersion (userStateFor userId stateDb
                g.categoryId)) seriesDb wS wE now = some x) := by
  unfold bundleStep at hx
  cases hcat : getCategory catDb g.categoryId with
  | none =>
    rw [hcat] at hx
    rcases List.mem_append.mp hx with h | h
    · exact Or.inl h
    · obtain ⟨it, hit, hxe⟩ := List.mem_map.mp h
      exact Or.inr (Or.inl ⟨it, hit, hxe.symm⟩)
  | some cat' =>
    rw [hcat] at hx
    simp only at hx
    cases hbi : buildBundleItem g cat'
        (resolveLastSeenVersion (userStateFor userId stateDb g.categoryId))
        seriesDb wS wE now with
    | none => rw [hbi] at hx; exact Or.inl hx
    | some item =>
      rw [hbi] at hx
      rcases List.mem_append.mp hx with h | h
      · exact Or.inl h
      · simp only [List.mem_singleton] at h
        exact Or.inr (Or.inr ⟨cat', rfl, by rw [h]; exact hbi⟩)

theorem groupStep_inv (P : BItem → Prop)
    (acc : List BItem × List CategoryGroup) (cand : SeriesCandidate)
    (hP : ∀ x ∈ acc.1, P x)
    (hQ : ∀ g ∈ acc.2, ∀ it ∈ g.items, P it.contentItem)
    (hc : P cand.contentItem) :
    (∀ x ∈ (groupStep acc cand).1, P x)
      ∧ (∀ g ∈ (groupStep acc cand).2, ∀ it ∈ g.items, P it.contentItem) := by
  unfold groupStep
  cases hcid : cand.series.category.id with
  | none =>
    dsimp only
    constructor
    · intro x hx
      rcases List.mem_append.mp hx with h | h
      · exact hP x h
      · simp only [List.mem_singleton] at h
        exact h ▸ hc
    · exact hQ
  | some cid =>
    cases hhid : cand.series.host.bind (·.id) with
    | none =>
      dsimp only
      constructor
      · intro x hx
        rcases List.mem_append.mp hx with h | h
        · exact hP x h
        · simp only [List.mem_singleton] at h
          exact h ▸ hc
      · exact hQ
    | some hid =>
      dsimp only
      by_cases hempty : cid = "" ∨ hid = ""
      · rw [if_pos hempty]
        constructor
        · intro x hx
          rcases List.mem_append.mp hx with h | h
          · exact hP x h
          · simp only [List.mem_singleton] at h
            exact h ▸ hc
        · exact hQ
      · rw [if_neg hempty]
        by_cases hfound :
            ((acc.2).find? (fun g => g.key = hid ++ "__" ++ cid)).isSome
        · rw [if_pos hfound]
          refine ⟨hP, ?_⟩
          intro g hg it hit
          obtain ⟨g0, hg0, hge⟩ := List.mem_map.mp hg
          by_cases hk : g0.key = hid ++ "__" ++ cid
          · rw [if_pos hk] at hge
            rw [← hge] at hit
            simp only at hit
            rcases List.mem_append.mp hit with h | h
            · exact hQ g0 hg0 it h
            · simp only [List.mem_singleton] at h
              exact h ▸ hc
          · rw [if_neg hk] at hge
            exact hQ g0 hg0 it (hge ▸ hit)
        · rw [if_neg hfound]
          refine ⟨hP, ?_⟩
          intro g hg it hit
          rcases List.mem_append.mp hg with h | h
          · exact hQ g h it hit
          · simp only [List.mem_singleton] at h
            rw [h] at hit
            simp only [List.mem_singleton] at hit
            exact hit ▸ hc

theorem groupCandidates_inv (P : BItem → Prop)
    (cands : List SeriesCandidate)
    (hc : ∀ c ∈ cands, P c.contentItem) :
    (∀ x ∈ (groupCandidates cands).1, P x)
      ∧ (∀ g ∈ (groupCandidates cands).2, ∀ it ∈ g.items,
          P it.contentItem) := by
  unfold groupCandidates
  suffices haux : ∀ (cs : List SeriesCandidate)
      (acc : List BItem × List CategoryGroup),
      (∀ c ∈ cs, P c.contentItem) →
      (∀ x ∈ acc.1, P x) →
      (∀ g ∈ acc.2, ∀ it ∈ g.items, P it.contentItem) →
      (∀ x ∈ (cs.foldl groupStep acc).1, P x)
        ∧ (∀ g ∈ (cs.foldl groupStep acc).2, ∀ it ∈ g.items,
            P it.contentItem) by
    exact haux cands ([], []) hc (by simp) (by simp)
  intro cs
  induction cs with
  | nil => intro acc _ hP hQ; exact ⟨hP, hQ⟩
  | cons c cs ih =>
    intro acc hcs hP hQ
    obtain ⟨hP', hQ'⟩ := groupStep_inv P acc c hP hQ
      (hcs c (List.mem_cons_self _ _))
    exact ih (groupStep acc c)
      (fun c' hc' => hcs c' (List.mem_cons_of_mem _ hc')) hP' hQ'

end Bundles

/-- C4: after `markSeen(u, c.id, v)` with `v = c.version ≥ 1`, a feed
request's `buildBundles` emits no bundle item for the (store-reachable)
category `c` — every emitted bundle metadata names a different category —
as long as `c.version` stays `v`; only a version increase can make the
change-log diff non-empty again. -/
theorem C4_theorem
    (u : String) (hu : u ≠ "")
    (cat : CatStore.Category) (hreach : CatStore.ReachableCat cat)
    (hcid : cat.id ≠ "")
    (v : ℚ) (hv : 1 ≤ v) (hver : cat.version = v)
    (catDb : String → Option CatStore.Category)
    (hdb : catDb cat.id = some cat)
    (db0 : String → String → Option Bundles.BState) (mnow : Int)
    (candidates : List Bundles.SeriesCandidate)
    (hcand : ∀ c ∈ candidates, c.contentItem.metadata.bundle = none)
    (seriesDb : String → Option Bundles.FeedSeries)
    (wS wE : Option Int) (now : Int) :
    ∀ item ∈ Bundles.buildBundles (some u) candidates catDb
        (Bundles.markSeen db0 u cat.id v mnow) seriesDb wS wE now,
      ∀ b, item.metadata.bundle = some b →
        b.bundleStateCategoryId ≠ cat.id := by
  have hentries : ∀ e ∈ cat.changeLog, e.version ≤ v := by
    intro e he
    have h := (CatStore.reachable_catInv hreach).2.2.2.1 e he
    rw [hver] at h
    exact h
  have hstate : Bundles.markSeen db0 u cat.id v mnow u cat.id
      = some { lastSeenVersion := v, lastSeenAt := some mnow } := by
    unfold Bundles.markSeen
    rw [if_neg (by push_neg; exact ⟨hu, hcid⟩)]
    simp
  have hresolve : Bundles.resolveLastSeenVersion
      (Bundles.userStateFor (some u)
        (Bundles.markSeen db0 u cat.id v mnow) cat.id) = some v := by
    unfold Bundles.userStateFor
    dsimp only
    rw [if_neg hu, hstate]
    unfold Bundles.resolveLastSeenVersion
    simp only
    rw [if_pos (by linarith)]
  have hPc : ∀ c ∈ candidates,
      (∀ b, c.contentItem.metadata.bundle = some b →
        b.bundleStateCategoryId ≠ cat.id) := by
    intro c hc b hb
    rw [hcand c hc] at hb
    cases hb
  obtain ⟨h1, h2⟩ := Bundles.groupCandidates_inv
    (fun x => ∀ b, x.metadata.bundle = some b →
      b.bundleStateCategoryId ≠ cat.id) candidates hPc
  intro item hitem
  unfold Bundles.buildBundles at hitem
  dsimp only at hitem
  cases hg : (Bundles.groupCandidates candidates).2 with
  | nil =>
    rw [hg] at hitem
    exact h1 item hitem
  | cons g gs =>
    rw [hg] at hitem
    rcases Bundles.mem_foldl_of_step _
      (fun grp x => (∃ it ∈ grp.items, x = it.contentItem)
        ∨ (∃ cat', Bundles.getCategory catDb grp.categoryId = some cat'
            ∧ Bundles.buildBundleItem grp cat'
                (Bundles.resolveLastSeenVersion (Bundles.userStateFor
                  (some u) (Bundles.markSeen db0 u cat.id v mnow)
                  grp.categoryId)) seriesDb wS wE now = some x))
      (fun res grp x hx =>
        Bundles.bundleStep_mem (some u) catDb
          (Bundles.markSeen db0 u cat.id v mnow) seriesDb wS wE now
          res grp x hx)
      (g :: gs) _ item hitem with h | ⟨grp, _, hC⟩
    · exact h1 item h
    · rcases hC with ⟨it, hit, rfl⟩ | ⟨cat', hcat', hbi⟩
      · refine h2 grp ?_ it hit
        rw [hg]
        assumption
      · by_cases hgc : grp.categoryId = cat.id
        · rw [hgc] at hcat' hbi
          have hcc : Bundles.getCategory catDb cat.id = some cat := by
            unfold Bundles.getCategory
            rw [hdb]
            rfl
          rw [hcc] at hcat'
          injection hcat' with hcc'
          rw [← hcc', hresolve] at hbi
          rw [Bundles.buildBundleItem_caught_up grp cat v seriesDb wS wE now
            hver hentries] at hbi
          cases hbi
        · intro b hb
          have hid := Bundles.buildBundleItem_meta_id grp cat' _ seriesDb
            wS wE now item b hbi hb
          rw [hid, Bundles.getCategory_id hcat']
          exact hgc

def c4Cat : CatStore.Category :=
  CatStore.createCategory CatStore.c3Input 0

/-- A second category of the same feed, never marked seen by the user. -/
def c4OtherCat : CatStore.Category :=
  CatStore.createCategory
    { id := "category:other", hostId := "host:h1", name := "Other"
      tags := [], seriesId := "series:1", seriesTitle := "Series One" } 0

def c4CatDb2 : String → Option CatStore.Category :=
  fun cid =>
    if cid = "category:abc" then some c4Cat
    else if cid = "category:other" then some c4OtherCat else none

def c4FeedSeries : Bundles.FeedSeries :=
  { id := "series:1", title := some "Series One"
    host := some { id := some "host:h1", name := some "Host"
                   organizer := none }
    category := { id := some "category:other", name := some "Other"
                  slug := some "other" }
    nextOccurrence := some { eventId := "e1", startTime := 500 }
    upcomingOccurrences := [], tags := [] }

def c4Candidate : Bundles.SeriesCandidate :=
  { contentItem :=
      { id := "series:1", title := "Series One"
        contentType := "event-series", tags := [], embedding := none
        createdAt := 100
        stats := { views := 0, likes := 0, shares := 0, bookmarks := 0 }
        metadata := { series := some c4FeedSeries, bundle := none } }
    series := c4FeedSeries }

def c4SeriesDb : String → Option Bundles.FeedSeries :=
  fun sid => if sid = "series:1" then some c4FeedSeries else none

theorem C4_theorem_witness :
    (Bundles.buildBundles (some "u1") [c4Candidate] c4CatDb2
        (Bundles.markSeen (fun _ _ => none) "u1" c4Cat.id 1 0)
        c4SeriesDb none none 0).all
      (fun item => item.metadata.bundle.all
        (fun b => decide (b.bundleStateCategoryId ≠ c4Cat.id))) = true := by
  have h := C4_theorem "u1" (by decide) c4Cat
    ⟨[CatStore.CatOp.create CatStore.c3Input 0], rfl⟩ (by decide)
    1 le_rfl rfl c4CatDb2 (by decide) (fun _ _ => none) 0 [c4Candidate]
    (by intro c hc; rw [List.mem_singleton] at hc; subst hc; rfl)
    c4SeriesDb none none 0
  rw [List.all_eq_true]
  intro item hitem
  cases hb : item.metadata.bundle with
  | none => rfl
  | some b => exact decide_eq_true (h item hitem b hb)

/-- C10: `requireBundleState` accepts `version = 0` (any number ≥ 0);
`markSeen` stores `lastSeenVersion = 0`; but `buildBundles` maps any stored
`lastSeenVersion ≤ 0` back to `null`, so such a user is still treated as a
first-time viewer of the category: `buildBundleItem` with a `null`
last-seen version is skipped only when the hydrated series set is empty,
and an emitted bundle is flagged new and shows the full set. -/
theorem C10_theorem :
    (∀ (cid : String) (q : ℚ), jsTrim cid ≠ "" → 0 ≤ q →
        Bundles.requireBundleState
            (.obj [("bundleState",
              .obj [("categoryId", .str cid), ("version", .num q)])])
          = .ok { categoryId := jsTrim cid, version := q })
      ∧ (∀ (db : String → String → Option Bundles.BState) (u cid : String)
          (now : Int), u ≠ "" → cid ≠ "" →
          Bundles.markSeen db u cid 0 now u cid
            = some { lastSeenVersion := 0, lastSeenAt := some now })
      ∧ (∀ st : Bundles.BState, st.lastSeenVersion ≤ 0 →
          Bundles.resolveLastSeenVersion (some st) = none)
      ∧ (∀ (group : Bundles.CategoryGroup) (category : CatStore.Category)
          (seriesDb : String → Option Bundles.FeedSeries)
          (wS wE : Option Int) (now : Int),
          (Bundles.buildBundleItem group category none seriesDb wS wE now
              = none
            ↔ Bundles.loadFullSeries group category seriesDb wS wE = [])
          ∧ (∀ item b,
              Bundles.buildBundleItem group category none seriesDb wS wE now
                  = some item →
              item.metadata.bundle = some b →
              b.isNewCategory = true ∧ b.displaySeries = b.allSeries
                ∧ b.newSeriesCount = b.totalSeriesCount)) := by
  refine ⟨?_, ?_, ?_, ?_⟩
  · intro cid q hcid hq
    simp [Bundles.requireBundleState, Bundles.jsGet, hcid, not_lt.mpr hq]
  · intro db u cid now hu hcid
    unfold Bundles.markSeen
    rw [if_neg (by push_neg; exact ⟨hu, hcid⟩)]
    simp
  · intro st hst
    unfold Bundles.resolveLastSeenVersion
    simp only
    rw [if_neg (not_lt.mpr hst)]
  · intro group category seriesDb wS wE now
    have hdisplay :
        (Bundles.loadFullSeries group category seriesDb wS wE).filter
            (fun s => s.id ∈ (Bundles.loadFullSeries group category seriesDb
              wS wE).map (·.id))
          = Bundles.loadFullSeries group category seriesDb wS wE := by
      apply List.filter_eq_self.mpr
      intro s hs
      simp only [List.mem_map, decide_eq_true_eq]
      exact ⟨s, hs, rfl⟩
    constructor
    · by_cases hfs : Bundles.loadFullSeries group category seriesDb wS wE = []
      · simp [Bundles.buildBundleItem, hfs]
      · simp [Bundles.buildBundleItem, hfs]
    · intro item b hsome hb
      unfold Bundles.buildBundleItem at hsome
      by_cases hfs : Bundles.loadFullSeries group category seriesDb wS wE = []
      · rw [if_pos hfs] at hsome; cases hsome
      · rw [if_neg hfs] at hsome
        rw [if_neg (by simp)] at hsome
        simp only [Option.some_inj] at hsome
        rw [← hsome] at hb
        simp only [Option.some_inj] at hb
        rw [← hb]
        refine ⟨by simp, ?_, ?_⟩
        · simp only [if_true, hdisplay, ite_self]
        · simp only [if_true, hdisplay, ite_self, List.length_map]

def c10Group : Bundles.CategoryGroup :=
  { key := "h__c", categoryId := "category:abc", hostId := "h"
    host := { id := some "h", name := none, organizer := none }
    items := [] }

theorem C10_theorem_witness :
    Bundles.requireBundleState
        (.obj [("bundleState",
          .obj [("categoryId", .str "cat1"), ("version", .num 0)])])
        = .ok { categoryId := jsTrim "cat1", version := 0 }
      ∧ Bundles.markSeen (fun _ _ => none) "u1" "cat1" 0 7 "u1" "cat1"
          = some { lastSeenVersion := 0, lastSeenAt := some 7 }
      ∧ Bundles.resolveLastSeenVersion
          (some { lastSeenVersion := 0, lastSeenAt := some 7 }) = none
      ∧ Bundles.buildBundleItem c10Group c4Cat none (fun _ => none)
          none none 0 = none := by
  refine ⟨?_, ?_, ?_, ?_⟩
  · exact C10_theorem.1 "cat1" 0 (by decide) le_rfl
  · exact C10_theorem.2.1 (fun _ _ => none) "u1" "cat1" 7
      (by decide) (by decide)
  · exact C10_theorem.2.2.1 { lastSeenVersion := 0, lastSeenAt := some 7 }
      le_rfl
  · exact (C10_theorem.2.2.2 c10Group c4Cat (fun _ => none)
      none none 0).1.mpr rfl

/-! ## C1 / C8 : feed ranking
(src/functions/src/services/feedRankingService.ts first document,
src/functions/src/services/userProfileService.ts,
src/functions/src/api/routes.ts GET /feed)

Scores are real numbers (`Math.exp` / `Math.sqrt`); everything else stays
rational and computable.  `Math.random()` is modelled by explicit streams
`ℕ → ℚ` in `[0,1)`.  The TS spread `{...item, score, scoreBreakdown}` is
modelled by nesting the original item. -/

namespace Feed

structure ContentItem where
  id : String
  title : String
  contentType : String
  tags : List String
  embedding : Option (List ℚ)
  createdAt : ℚ
  statsViews : Option ℚ
  statsLikes : Option ℚ
  statsShares : Option ℚ
  statsBookmarks : Option ℚ
deriving DecidableEq, Repr

structure ScoreBreakdown where
  topicScore : ℝ
  contentTypeScore : ℝ
  timeScore : ℝ
  styleScore : ℝ
  recencyScore : ℝ
  popularityScore : ℝ

structure RankedContentItem where
  item : ContentItem
  score : ℝ
  scoreBreakdown : ScoreBreakdown

inductive TimeOfDay where
  | morning
  | afternoon
  | evening
  | night
deriving DecidableEq, Repr

/-- One interaction as `getRecentInteractions` maps it. -/
structure InteractionData where
  contentId : String
  contentType : String
  action : String
  dwellTime : Option ℚ
  timestamp : String
  position : Option ℚ
  timeOfDay : Option TimeOfDay
  contentTags : List String
deriving DecidableEq, Repr

/-- `ACTION_WEIGHTS` with the `|| 0` fallback for unknown actions. -/
def ACTION_WEIGHTS (action : String) : ℚ :=
  if action = "viewed" then 1/10
  else if action = "liked" then 3
  else if action = "shared" then 5
  else if action = "bookmarked" then 4
  else if action = "dismissed" then -2
  else if action = "not-interested" then -5
  else if action = "attended" then 10
  else if action = "engaged" then 4
  else if action = "commented" then 4
  else 0

def positiveActions : List String :=
  ["liked", "bookmarked", "shared", "attended", "engaged"]

/-- `averageVectors` over the first vector's dimension
(userProfileService copy). -/
def averageVectors (vectors : List (List ℚ)) : List ℚ :=
  match vectors with
  | [] => []
  | v0 :: _ =>
    (List.range v0.length).map
      (fun i =>
        (vectors.foldl (fun acc v => acc + v.getD i 0) 0)
          / (vectors.length : ℚ))

/-- `getUserEmbedding` : mean of the vectors of positively-acted-on events
(`eventVectors` models the chunked `events` reads, which preserve order);
null when there is no positive interaction or no non-empty vector. -/
def getUserEmbedding (interactions : List InteractionData)
    (eventVectors : String → Option (List ℚ)) : Option (List ℚ) :=
  let positiveInteractions :=
    interactions.filter (fun i => i.action ∈ positiveActions)
  if positiveInteractions = [] then none
  else
    let embeddings := positiveInteractions.filterMap
      (fun i =>
        match eventVectors i.contentId with
        | some v => if v ≠ [] then some v else none
        | none => none)
    if embeddings = [] then none else some (averageVectors embeddings)

def clampQ (value mn mx : ℚ) : ℚ :=
  min mx (max mn value)

/-- `computeContentTypeAffinity` as a lookup: types with no interaction read
as `undefined` (`none`). -/
def computeContentTypeAffinity (interactions : List InteractionData)
    (contentType : String) : Option ℚ :=
  let relevant := interactions.filter (fun i => i.contentType = contentType)
  if relevant.length = 0 then none
  else some (clampQ
    ((relevant.foldl (fun acc i => acc + ACTION_WEIGHTS i.action) 0)
      / (relevant.length : ℚ) / 10) (-1) 1)

/-- `computeTimeOfDayPatterns` : interaction counts per bucket. -/
def computeTimeOfDayPatterns (interactions : List InteractionData)
    (tod : TimeOfDay) : ℚ :=
  ((interactions.filter (fun i => i.timeOfDay = some tod)).length : ℚ)

structure EngagementStyle where
  isDeepReader : Bool
  scrollsDeep : Bool
  quickBrowser : Bool
  avgDwellTime : ℚ
  avgPosition : ℚ
deriving DecidableEq, Repr

def avgOfPos (values : List ℚ) : ℚ :=
  let vs := values.filter (fun v => 0 < v)
  if vs = [] then 0 else (vs.foldl (· + ·) 0) / (vs.length : ℚ)

/-- `computeEngagementStyle`. -/
def computeEngagementStyle (interactions : List InteractionData) :
    EngagementStyle :=
  if interactions = [] then
    { isDeepReader := false, scrollsDeep := false, quickBrowser := true
      avgDwellTime := 0, avgPosition := 0 }
  else
    let avgDwellTime := avgOfPos (interactions.map (fun i => i.dwellTime.getD 0))
    let avgPosition := avgOfPos (interactions.map (fun i => i.position.getD 0))
    { isDeepReader := 10 < avgDwellTime
      scrollsDeep := 20 < avgPosition
      quickBrowser := avgDwellTime < 3
      avgDwellTime := avgDwellTime
      avgPosition := avgPosition }

structure UserProfile where
  userId : String
  embedding : Option (List ℚ)
  contentTypeAffinity : String → Option ℚ
  timeOfDayPatterns : TimeOfDay → ℚ
  engagementStyle : EngagementStyle
  totalInteractions : Nat
  lastActiveAt : Option String

/-- `buildUserProfile` over the (already loaded, newest-first) interaction
window. -/
def buildUserProfile (userId : String)
    (interactions : List InteractionData)
    (eventVectors : String → Option (List ℚ)) : UserProfile :=
  { userId := userId
    embedding := getUserEmbedding interactions eventVectors
    contentTypeAffinity := computeContentTypeAffinity interactions
    timeOfDayPatterns := computeTimeOfDayPatterns interactions
    engagementStyle := computeEngagementStyle interactions
    totalInteractions := interactions.length
    lastActiveAt := interactions.head?.map (·.timestamp) }

/-- `hasEnoughDataForPersonalization` : the limit-20 query reports at least
20 interactions. -/
def hasEnoughDataForPersonalization
    (interactions : List InteractionData) : Bool :=
  20 ≤ interactions.length

/-- `getTimeOfDay`. -/
def getTimeOfDay (hour : Nat) : TimeOfDay :=
  if 6 ≤ hour ∧ hour < 12 then .morning
  else if 12 ≤ hour ∧ hour < 18 then .afternoon
  else if 18 ≤ hour ∧ hour < 22 then .evening
  else .night

noncomputable def cosineSimilarity (a b : List ℚ) : ℝ :=
  if a.length ≠ b.length then 0
  else
    let dot := (a.zip b).foldl (fun acc p => acc + p.1 * p.2) (0 : ℚ)
    let normA := a.foldl (fun acc x => acc + x * x) (0 : ℚ)
    let normB := b.foldl (fun acc x => acc + x * x) (0 : ℚ)
    if normA = 0 ∨ normB = 0 then 0
    else (dot : ℝ) / (Real.sqrt (normA : ℝ) * Real.sqrt (normB : ℝ))

noncomputable def computeTopicScore (item : ContentItem)
    (profile : UserProfile) : ℝ :=
  match item.embedding, profile.embedding with
  | some a, some b => cosineSimilarity a b
  | _, _ => 0

noncomputable def computeContentTypeScore (item : ContentItem)
    (profile : UserProfile) : ℝ :=
  match profile.contentTypeAffinity item.contentType with
  | none => 1 / 2
  | some affinity => ((affinity : ℝ) + 1) / 2

noncomputable def computeTimeScore (currentTimeOfDay : TimeOfDay)
    (profile : UserProfile) : ℝ :=
  let total := profile.timeOfDayPatterns .morning
    + profile.timeOfDayPatterns .afternoon
    + profile.timeOfDayPatterns .evening
    + profile.timeOfDayPatterns .night
  if total = 0 then 1 / 2
  else ((profile.timeOfDayPatterns currentTimeOfDay : ℚ) : ℝ) / (total : ℝ)

noncomputable def computeStyleScore (item : ContentItem)
    (profile : UserProfile) : ℝ :=
  let estimatedLength : ℚ := (item.title.length : ℚ)
  if profile.engagementStyle.isDeepReader
  then min ((estimatedLength : ℝ) / 200) 1
  else if profile.engagementStyle.quickBrowser
  then max (1 - (estimatedLength : ℝ) / 200) 0
  else 1 / 2

/-- `getRecencyScore` : `e^(-ageInHours / 24)`. -/
noncomputable def getRecencyScore (now createdAt : ℚ) : ℝ :=
  Real.exp (-((((now - createdAt) / 3600000 : ℚ) : ℝ)) / 24)

noncomputable def getPopularityScore (item : ContentItem) : ℝ :=
  let views := item.statsViews.getD 0
  let engagement := item.statsLikes.getD 0
    + item.statsShares.getD 0 * 2
    + item.statsBookmarks.getD 0 * (3 / 2)
  if views = 0 then 0
  else min ((engagement / views / (1 / 5) : ℚ) : ℝ) 1

structure RankingWeights where
  topic : ℝ
  contentType : ℝ
  time : ℝ
  style : ℝ
  recency : ℝ
  popularity : ℝ

noncomputable def DEFAULT_WEIGHTS : RankingWeights :=
  { topic := 0.40, contentType := 0.25, time := 0.15
    style := 0.10, recency := 0.05, popularity := 0.05 }

/-- `rankContent` : with no interaction history or no embedding centroid,
fall back to recency-only scores in input order; otherwise score all six
signals and stable-sort descending by total score. -/
noncomputable def rankContent (profile : UserProfile)
    (candidates : List ContentItem) (now : ℚ)
    (currentTimeOfDay : TimeOfDay) (weights : RankingWeights) :
    List RankedContentItem :=
  if profile.totalInteractions = 0 ∨ profile.embedding = none then
    candidates.map (fun item =>
      { item := item
        score := getRecencyScore now item.createdAt
        scoreBreakdown :=
          { topicScore := 0, contentTypeScore := 0, timeScore := 0
            styleScore := 0
            recencyScore := getRecencyScore now item.createdAt
            popularityScore := 0 } })
  else
    let scored := candidates.map (fun item =>
      let breakdown : ScoreBreakdown :=
        { topicScore := computeTopicScore item profile
          contentTypeScore := computeContentTypeScore item profile
          timeScore := computeTimeScore currentTimeOfDay profile
          styleScore := computeStyleScore item profile
          recencyScore := getRecencyScore now item.createdAt
          popularityScore := getPopularityScore item }
      { item := item
        score := weights.topic * breakdown.topicScore
          + weights.contentType * breakdown.contentTypeScore
          + weights.time * breakdown.timeScore
          + weights.style * breakdown.styleScore
          + weights.recency * breakdown.recencyScore
          + weights.popularity * breakdown.popularityScore
        scoreBreakdown := breakdown })
    scored.insertionSort (fun a b => b.score ≤ a.score)

/-- One swap of a Fisher–Yates pass (in-range JS indices; out-of-range
cannot occur for `Math.random() ∈ [0,1)`). -/
def listSwap {α : Type} (l : List α) (i j : Nat) : List α :=
  match l.get? i, l.get? j with
  | some x, some y => (l.set i y).set j x
  | _, _ => l

/-- The Fisher–Yates loop of `shuffleArray`, from index `i` down to 1; the
`k`-th `Math.random()` sample is `rand k`. -/
def fyAux {α : Type} (rand : Nat → ℚ) : Nat → List α → List α
  | 0, l => l
  | i + 1, l =>
    fyAux rand i (listSwap l (i + 1) (jsFloorNat (rand (i + 1) * (i + 2 : ℚ))))

/-- `shuffleArray` : Fisher–Yates with an explicit random stream. -/
def shuffleArray {α : Type} (rand : Nat → ℚ) (l : List α) : List α :=
  fyAux rand (l.length - 1) l

/-- `applyExplorationMix` : keep the top `⌊N·ratio⌋`, sample the rest, and
shuffle the combination (two shuffle invocations consume the two streams). -/
def applyExplorationMix {α : Type} (rand1 rand2 : Nat → ℚ)
    (rankedItems : List α) (exploitRatio : ℚ) : List α :=
  let exploitCount := jsFloorNat ((rankedItems.length : ℚ) * exploitRatio)
  let exploreCount := rankedItems.length - exploitCount
  let topItems := rankedItems.take exploitCount
  let remainingItems := rankedItems.drop exploitCount
  let exploreItems := (shuffleArray rand1 remainingItems).take exploreCount
  shuffleArray rand2 (topItems ++ exploreItems)

/-- The GET /feed non-personalized branch: ascending `createdAt`
(stable sort), all scores zero. -/
def chronologicalZeroScored (candidates : List ContentItem) :
    List RankedContentItem :=
  (candidates.insertionSort (fun a b => a.createdAt ≤ b.createdAt)).map
    (fun item =>
      { item := item
        score := 0
        scoreBreakdown :=
          { topicScore := 0, contentTypeScore := 0, timeScore := 0
            styleScore := 0, recencyScore := 0, popularityScore := 0 } })

/-- The GET /feed ranking pipeline: behavioral ranking plus exploration mix
when the user meets the personalization threshold, chronological zero-scored
otherwise. -/
noncomputable def feedRankedItems (interactions : List InteractionData)
    (eventVectors : String → Option (List ℚ)) (userId : String)
    (candidates : List ContentItem) (now : ℚ)
    (currentTimeOfDay : TimeOfDay) (rand1 rand2 : Nat → ℚ) :
    List RankedContentItem :=
  if hasEnoughDataForPersonalization interactions then
    applyExplorationMix rand1 rand2
      (rankContent (buildUserProfile userId interactions eventVectors)
        candidates now currentTimeOfDay DEFAULT_WEIGHTS) (4 / 5)
  else chronologicalZeroScored candidates

end Feed

namespace Feed

theorem getSet_cons_perm {α : Type} :
    ∀ (t : List α) (m : Nat) (y a : α), t.get? m = some y →
      List.Perm (y :: t.set m a) (a :: t)
  | [], m, y, a, h => by simp at h
  | b :: s, 0, y, a, h => by
    simp only [List.get?] at h
    injection h with h
    subst h
    exact List.Perm.swap a b s
  | b :: s, Nat.succ m, y, a, h => by
    have h1 : s.get? m = some y := h
    have ih := getSet_cons_perm s m y a h1
    have h2 : List.Perm (y :: b :: s.set m a) (b :: y :: s.set m a) :=
      List.Perm.swap b y (s.set m a)
    have h3 : List.Perm (b :: y :: s.set m a) (b :: a :: s) := ih.cons b
    have h4 : List.Perm (b :: a :: s) (a :: b :: s) := List.Perm.swap a b s
    exact h2.trans (h3.trans h4)

theorem set_set_perm {α : Type} :
    ∀ (l : List α) (i j : Nat) (x y : α), l.get? i = some x →
      l.get? j = some y → List.Perm ((l.set i y).set j x) l
  | [], i, _, _, _, hi, _ => by cases i <;> simp at hi
  | a :: t, 0, 0, x, y, hi, hj => by
    simp only [List.get?] at hi
    injection hi with hi
    subst hi
    exact List.Perm.refl _
  | a :: t, 0, Nat.succ j, x, y, hi, hj => by
    simp only [List.get?] at hi
    injection hi with hi
    subst hi
    have h1 : t.get? j = some y := hj
    exact getSet_cons_perm t j y a h1
  | a :: t, Nat.succ i, 0, x, y, hi, hj => by
    simp only [List.get?] at hj
    injection hj with hj
    subst hj
    have h1 : t.get? i = some x := hi
    exact getSet_cons_perm t i x a h1
  | a :: t, Nat.succ i, Nat.succ j, x, y, hi, hj => by
    have h1 : t.get? i = some x := hi
    have h2 : t.get? j = some y := hj
    exact (set_set_perm t i j x y h1 h2).cons a

theorem listSwap_perm {α : Type} (l : List α) (i j : Nat) :
    List.Perm (listSwap l i j) l := by
  unfold listSwap
  cases hi : l.get? i with
  | none => exact List.Perm.refl l
  | some x =>
    cases hj : l.get? j with
    | none => exact List.Perm.refl l
    | some y => exact set_set_perm l i j x y hi hj

theorem fyAux_perm {α : Type} (rand : Nat → ℚ) :
    ∀ (i : Nat) (l : List α), List.Perm (fyAux rand i l) l
  | 0, l => List.Perm.refl l
  | i + 1, l => by
    rw [fyAux]
    exact (fyAux_perm rand i _).trans (listSwap_perm l (i + 1) _)

theorem shuffleArray_perm {α : Type} (rand : Nat → ℚ) (l : List α) :
    List.Perm (shuffleArray rand l) l :=
  fyAux_perm rand (l.length - 1) l

end Feed

/-- C8: for every ranked input list and every exploitRatio in [0,1],
`applyExplorationMix` returns a permutation of its input — same length and
same multiset of items, so no candidate is dropped or duplicated. -/
theorem C8_theorem {α : Type} (rand1 rand2 : Nat → ℚ) (rankedItems : List α)
    (exploitRatio : ℚ) (_h0 : 0 ≤ exploitRatio) (_h1 : exploitRatio ≤ 1) :
    List.Perm (Feed.applyExplorationMix rand1 rand2 rankedItems exploitRatio)
        rankedItems
      ∧ (Feed.applyExplorationMix rand1 rand2 rankedItems
          exploitRatio).length = rankedItems.length := by
  have hlen : (Feed.shuffleArray rand1
      (rankedItems.drop
        (jsFloorNat ((rankedItems.length : ℚ) * exploitRatio)))).length
      = rankedItems.length
          - jsFloorNat ((rankedItems.length : ℚ) * exploitRatio) :=
    ((Feed.shuffleArray_perm rand1 _).length_eq).trans
      (List.length_drop _ _)
  have htake : (Feed.shuffleArray rand1
      (rankedItems.drop
        (jsFloorNat ((rankedItems.length : ℚ) * exploitRatio)))).take
      (rankedItems.length
        - jsFloorNat ((rankedItems.length : ℚ) * exploitRatio))
      = Feed.shuffleArray rand1
          (rankedItems.drop
            (jsFloorNat ((rankedItems.length : ℚ) * exploitRatio))) :=
    List.take_of_length_le (le_of_eq hlen)
  have hperm : List.Perm
      (Feed.applyExplorationMix rand1 rand2 rankedItems exploitRatio)
      rankedItems := by
    show List.Perm
      (Feed.shuffleArray rand2
        (rankedItems.take (jsFloorNat ((rankedItems.length : ℚ) * exploitRatio))
          ++ (Feed.shuffleArray rand1
              (rankedItems.drop
                (jsFloorNat ((rankedItems.length : ℚ) * exploitRatio)))).take
              (rankedItems.length
                - jsFloorNat ((rankedItems.length : ℚ) * exploitRatio))))
      rankedItems
    refine (Feed.shuffleArray_perm rand2 _).trans ?_
    rw [htake]
    have hmid := (Feed.shuffleArray_perm rand1
      (rankedItems.drop
        (jsFloorNat ((rankedItems.length : ℚ) * exploitRatio)))).append_left
      (rankedItems.take (jsFloorNat ((rankedItems.length : ℚ) * exploitRatio)))
    rw [List.take_append_drop] at hmid
    exact hmid
  exact ⟨hperm, hperm.length_eq⟩

/-- C8 witness at a concrete list and ratio. -/
theorem C8_theorem_witness :
    (0 : ℚ) ≤ 4 / 5 ∧ (4 : ℚ) / 5 ≤ 1
      ∧ List.Perm (Feed.applyExplorationMix (fun _ => 1 / 2) (fun _ => 1 / 2)
          ([1, 2, 3] : List Nat) (4 / 5)) [1, 2, 3]
      ∧ (Feed.applyExplorationMix (fun _ => 1 / 2) (fun _ => 1 / 2)
          ([1, 2, 3] : List Nat) (4 / 5)).length = 3 :=
  ⟨by norm_num, by norm_num,
    (C8_theorem (fun _ => 1 / 2) (fun _ => 1 / 2) [1, 2, 3] (4 / 5)
      (by norm_num) (by norm_num)).1,
    (C8_theorem (fun _ => 1 / 2) (fun _ => 1 / 2) [1, 2, 3] (4 / 5)
      (by norm_num) (by norm_num)).2⟩

namespace Feed

instance : IsTotal ContentItem (fun a b => a.createdAt ≤ b.createdAt) :=
  ⟨fun a b => le_total a.createdAt b.createdAt⟩

instance : IsTrans ContentItem (fun a b => a.createdAt ≤ b.createdAt) :=
  ⟨fun _ _ _ hab hbc => le_trans hab hbc⟩

/-- An interaction whose action is only `viewed` (weight 0.1, not a
positive-embedding action). -/
def c1Interaction : InteractionData :=
  { contentId := "event-1", contentType := "event", action := "viewed"
    dwellTime := none, timestamp := "2025-01-01T00:00:00.000Z"
    position := none, timeOfDay := none, contentTags := [] }

/-- Twenty `viewed` interactions: meets the personalization threshold. -/
def c1Interactions : List InteractionData :=
  List.replicate 20 c1Interaction

/-- An events collection with no vectors. -/
def c1EventVectors : String → Option (List ℚ) := fun _ => none

def c1Item : ContentItem :=
  { id := "series:one", title := "Morning Run", contentType := "event-series"
    tags := [], embedding := none, createdAt := 0
    statsViews := none, statsLikes := none, statsShares := none
    statsBookmarks := none }

end Feed

namespace Feed

/-- On a one-element list, the exploration mix with ratio 4/5 is the
identity: the exploit slice is empty and both shuffles fix a singleton. -/
theorem applyExplorationMix_singleton {α : Type} (rand1 rand2 : Nat → ℚ)
    (x : α) :
    applyExplorationMix rand1 rand2 [x] (4 / 5) = [x] := by
  have hr : jsFloorNat ((([x] : List α).length : ℚ) * (4 / 5)) = 0 := by
    norm_num [jsFloorNat]
  unfold applyExplorationMix
  dsimp only
  rw [hr]
  simp [shuffleArray, fyAux]

end Feed

/-- C1 counterexample: a user with 20 `viewed` interactions meets the
personalization threshold, yet their profile has no embedding centroid; the
feed then takes the personalized branch, `rankContent` falls back to
recency-only scores, and the single candidate comes back with score
`e^0 = 1`, not zero (and not via the ascending-createdAt zero-score path,
which only runs below the threshold). -/
theorem C1_counterexample :
    Feed.hasEnoughDataForPersonalization Feed.c1Interactions = true
      ∧ (Feed.buildUserProfile "user-1" Feed.c1Interactions
          Feed.c1EventVectors).embedding = none
      ∧ (Feed.feedRankedItems Feed.c1Interactions Feed.c1EventVectors
          "user-1" [Feed.c1Item] 0 .morning (fun _ => 0)
          (fun _ => 0)).map (fun r => r.score) = [Feed.getRecencyScore 0 0]
      ∧ Feed.getRecencyScore 0 0 ≠ 0 := by
  refine ⟨by decide, rfl, ?_, ?_⟩
  · have hcond : Feed.hasEnoughDataForPersonalization Feed.c1Interactions
        = true := by decide
    have hprof : (Feed.buildUserProfile "user-1" Feed.c1Interactions
        Feed.c1EventVectors).embedding = none := rfl
    unfold Feed.feedRankedItems
    rw [if_pos hcond]
    unfold Feed.rankContent
    rw [if_pos (Or.inr hprof)]
    rw [List.map_cons, List.map_nil, Feed.applyExplorationMix_singleton]
    rfl
  · unfold Feed.getRecencyScore
    exact Real.exp_ne_zero _

/-- C1 amended: the ascending-createdAt, all-zero-scores feed only runs when
the user is below the 20-interaction personalization threshold (that branch
is a stable ascending sort by createdAt with every score zero).  When the
threshold is met but the profile has no embedding centroid, `rankContent`
instead keeps the candidates in input order and scores each one by recency
alone — score = recencyScore = e^(-ageHours/24), which is strictly positive,
never zero — before the exploration mix is applied. -/
theorem C1_amended :
    (∀ (interactions : List Feed.InteractionData)
        (eventVectors : String → Option (List ℚ)) (userId : String)
        (candidates : List Feed.ContentItem) (now : ℚ)
        (tod : Feed.TimeOfDay) (rand1 rand2 : Nat → ℚ),
        Feed.hasEnoughDataForPersonalization interactions = false →
          Feed.feedRankedItems interactions eventVectors userId candidates
              now tod rand1 rand2 = Feed.chronologicalZeroScored candidates)
      ∧ (∀ (candidates : List Feed.ContentItem),
          List.Sorted (fun a b : Feed.RankedContentItem =>
              a.item.createdAt ≤ b.item.createdAt)
            (Feed.chronologicalZeroScored candidates)
          ∧ ∀ r ∈ Feed.chronologicalZeroScored candidates, r.score = 0)
      ∧ (∀ (profile : Feed.UserProfile)
          (candidates : List Feed.ContentItem) (now : ℚ)
          (tod : Feed.TimeOfDay) (weights : Feed.RankingWeights),
          profile.embedding = none →
            Feed.rankContent profile candidates now tod weights
              = candidates.map (fun item =>
                  { item := item
                    score := Feed.getRecencyScore now item.createdAt
                    scoreBreakdown :=
                      { topicScore := 0, contentTypeScore := 0
                        timeScore := 0, styleScore := 0
                        recencyScore := Feed.getRecencyScore now item.createdAt
                        popularityScore := 0 } }))
      ∧ ∀ (now createdAt : ℚ), 0 < Feed.getRecencyScore now createdAt := by
  refine ⟨?_, ?_, ?_, ?_⟩
  · intro interactions eventVectors userId candidates now tod rand1 rand2 h
    simp only [Feed.feedRankedItems, h, Bool.false_eq_true, if_false]
  · intro candidates
    constructor
    · have hs : List.Sorted
          (fun a b : Feed.ContentItem => a.createdAt ≤ b.createdAt)
          (candidates.insertionSort
            (fun a b => a.createdAt ≤ b.createdAt)) :=
        List.sorted_insertionSort _ _
      exact List.Pairwise.map _ (fun a b hab => hab) hs
    · intro r hr
      simp only [Feed.chronologicalZeroScored, List.mem_map] at hr
      obtain ⟨x, _, rfl⟩ := hr
      rfl
  · intro profile candidates now tod weights h
    unfold Feed.rankContent
    rw [if_pos (Or.inr h)]
  · intro now createdAt
    unfold Feed.getRecencyScore
    exact Real.exp_pos _

/-- C1 amended, witnessed at concrete inputs: an empty interaction history
is below the threshold, and a profile built from it has no centroid. -/
theorem C1_amended_witness :
    Feed.hasEnoughDataForPersonalization ([] : List Feed.InteractionData)
        = false
      ∧ Feed.feedRankedItems [] Feed.c1EventVectors "user-1" [Feed.c1Item] 0
          .morning (fun _ => 0) (fun _ => 0)
          = Feed.chronologicalZeroScored [Feed.c1Item]
      ∧ (Feed.buildUserProfile "user-1" [] Feed.c1EventVectors).embedding
          = none
      ∧ Feed.rankContent (Feed.buildUserProfile "user-1" [] Feed.c1EventVectors)
          [Feed.c1Item] 0 .morning Feed.DEFAULT_WEIGHTS
          = [Feed.c1Item].map (fun item =>
              { item := item
                score := Feed.getRecencyScore 0 item.createdAt
                scoreBreakdown :=
                  { topicScore := 0, contentTypeScore := 0
                    timeScore := 0, styleScore := 0
                    recencyScore := Feed.getRecencyScore 0 item.createdAt
                    popularityScore := 0 } })
      ∧ 0 < Feed.getRecencyScore 0 0 :=
  ⟨by decide,
    C1_amended.1 [] Feed.c1EventVectors "user-1" [Feed.c1Item] 0 .morning
      (fun _ => 0) (fun _ => 0) (by decide),
    rfl,
    C1_amended.2.2.1 (Feed.buildUserProfile "user-1" [] Feed.c1EventVectors)
      [Feed.c1Item] 0 .morning Feed.DEFAULT_WEIGHTS rfl,
    C1_amended.2.2.2 0 0⟩

/-! ## C2 : calendar ingest pipeline
(src/functions/src/workers/googleCalendarIngest.ts,
src/functions/src/tags/proposalService.ts + proposalRepository.ts,
src/unnamed/part_008 `EventStore`, src/unnamed/part_010 `EventSeriesStore`,
src/functions/src/services/feedRankingService.ts second document
(`EventCategoryAssignmentService`), src/unnamed/part_006 slug utils)

A payload is modelled together with its normalized form
(`normalizeGoogleCalendarEvent` is deterministic bookkeeping; a payload
without a start time makes `normalizeEvent` throw, which the `hasStart`
flag captures).  ISO timestamp strings stay strings, `Timestamp.now()` is
an explicit `now : Int` run parameter, and the LLM / embedding / hash
collaborators are oracle parameters.  `payload.raw.raw.updated`,
`payload.raw.updated` and the stored `rawSnapshot.updated` all mirror the
same Calendar-API `updated` field, modelled as one `updated : Option
String`. -/

namespace Ingest

def getA {β : Type} (l : List (String × β)) (k : String) : Option β :=
  (l.find? (fun p => p.1 = k)).map (·.2)

def setA {β : Type} (l : List (String × β)) (k : String) (v : β) :
    List (String × β) :=
  if (l.find? (fun p => p.1 = k)).isSome
  then l.map (fun p => if p.1 = k then (k, v) else p)
  else l ++ [(k, v)]

/-- `String.prototype.slice(0, n)` (kernel-reducible `String.take`). -/
def strTake (s : String) (n : Nat) : String :=
  ⟨s.data.take n⟩

/-- `String.prototype.split(sep)` for a one-character separator. -/
def charSplit (x : Char) : List Char → List (List Char)
  | [] => [[]]
  | c :: cs =>
    let r := charSplit x cs
    if c = x then [] :: r
    else
      match r with
      | [] => [[c]]
      | g :: gs => (c :: g) :: gs

def splitOnChar (x : Char) (s : String) : List String :=
  (charSplit x s.data).map (fun l => (⟨l⟩ : String))

def MIN_TOKEN_LENGTH : Nat := 4

def MAX_PROPOSALS_PER_EVENT : Nat := 10

def THEME_STOP_WORDS : List String :=
  ["the", "and", "with", "from", "this", "that", "your", "into", "have",
   "will", "each", "them", "they", "their", "about", "after",
   "before", "during", "event", "events", "community", "local", "group",
   "meeting", "meet", "meetup", "club", "class", "classes",
   "session", "sessions", "workshop", "workshops", "seminar", "seminars",
   "introduction", "intro", "series", "night", "day",
   "week", "weekly", "month", "monthly", "open", "house", "city", "county",
   "state", "public", "free", "join", "learn", "learning",
   "skills", "skill", "family", "families", "kids", "youth", "adult",
   "adults", "beginner", "beginners", "advanced", "general",
   "center", "centre", "campus", "camp", "program", "programs", "season",
   "seasonal", "festival", "fest", "market", "gathering",
   "fun", "games", "game", "activity", "activities", "support",
   "supporting", "volunteer", "volunteers", "drive", "drives",
   "classroom", "grade", "grades", "school", "schools", "career",
   "careers", "town", "citywide", "regional", "morning", "evening",
   "afternoon", "night", "monday", "tuesday", "wednesday", "thursday",
   "friday", "saturday", "sunday", "january", "february",
   "march", "april", "may", "june", "july", "august", "september",
   "october", "november", "december", "am", "pm", "zoom", "hybrid",
   "in-person", "online", "virtual", "hosted", "hosting", "feature",
   "featuring", "special", "celebration", "celebrate", "music",
   "food", "foods", "drink", "drinks", "network", "networking", "pop",
   "up", "pop-up", "popups", "love", "support", "history",
   "cultural", "culture", "arts", "art", "artistic", "craft", "crafts",
   "create", "creative", "creativity", "performance", "perform",
   "performing", "show", "shows", "showcase", "experience", "experiences",
   "talk", "talks", "speaker", "speakers", "panel",
   "panels", "discussion", "discussions", "forum", "forums", "story",
   "stories", "storytelling", "book", "books", "reading",
   "readings", "library", "libraries", "celebrations", "festival",
   "festivals", "practice", "practices", "individuals", "years",
   "year", "graders", "grade", "buck", "park", "parks", "teacher",
   "teachers", "instructor", "instructors", "nd-3rd", "jd",
   "level", "levels", "field", "fields", "behind", "elementary", "ages",
   "mondays", "tuesdays", "wednesdays", "thursdays", "fridays",
   "saturdays", "sundays", "chelsea", "moss", "jeff", "ivona", "hiba"]

/-- `slugify` (tags/proposalService.ts): trim, lower-case, collapse
non-alphanumeric runs to `-`, strip leading/trailing dashes; empty unless
at least `MIN_TOKEN_LENGTH` characters survive. -/
def slugify (label : String) : String :=
  let lowered := (jsToLower (jsTrim label)).data
  let dashed := lowered.map
    (fun c => if CatStore.isLowerAlnum c then c else '-')
  let collapsed := CatStore.dashCollapse dashed
  let slug : String :=
    ⟨((collapsed.dropWhile (· = '-')).reverse.dropWhile (· = '-')).reverse⟩
  if MIN_TOKEN_LENGTH ≤ slug.length then slug else ""

/-- `shouldKeepGeneratedSlug` : non-empty after trim+lower and not a theme
stop word. -/
def shouldKeepGeneratedSlug (slug : String) : Bool :=
  let normalized := jsToLower (jsTrim slug)
  if normalized = "" then false
  else decide (normalized ∉ THEME_STOP_WORDS)

def asciiUpper (c : Char) : Char :=
  if 'a'.toNat ≤ c.toNat ∧ c.toNat ≤ 'z'.toNat
  then Char.ofNat (c.toNat - 32) else c

/-- Collapse runs of the character `x` to a single occurrence. -/
def runCollapse (x : Char) : List Char → List Char
  | [] => []
  | c :: cs =>
    match runCollapse x cs with
    | [] => [c]
    | d :: ds => if c = x ∧ d = x then d :: ds else c :: d :: ds

/-- `formatLabel` : split the slug on `-`, capitalize each part, join with
spaces, collapse whitespace, trim. -/
def formatLabel (token : String) : String :=
  let parts := splitOnChar '-' token
  let capped := parts.map (fun part =>
    match part.data with
    | [] => ""
    | c :: cs => (⟨asciiUpper c :: cs⟩ : String))
  let joined := (String.intercalate " " capped).data.map
    (fun c => if jsIsWS c then ' ' else c)
  jsTrim ⟨runCollapse ' ' joined⟩

structure TagProposalRecord where
  slug : String
  label : String
  eventId : String
  sourceId : String
  sourceEventId : Option String
  eventTitle : String
deriving DecidableEq, Repr

structure SampleEvent where
  eventId : String
  sourceId : String
  sourceEventId : Option String
  title : String
  seenAt : Int
deriving DecidableEq, Repr

/-- Occurrence counts are JS numbers; on this collection they are always
integers (created at 1, incremented by 1), modelled as `Int`. -/
structure ProposalDoc where
  slug : String
  label : String
  status : String
  occurrenceCount : Int
  createdAt : Int
  updatedAt : Int
  lastSeenAt : Int
  sourceCounts : List (String × Int)
  sampleEvents : List SampleEvent
deriving DecidableEq, Repr

def buildSampleEvent (r : TagProposalRecord) (seenAt : Int) : SampleEvent :=
  { eventId := r.eventId, sourceId := r.sourceId
    sourceEventId := r.sourceEventId, title := r.eventTitle
    seenAt := seenAt }

/-- `trimSampleEvents` : drop the event's old sample, unshift the new one,
keep the first 5. -/
def trimSampleEvents (existing : List SampleEvent) (r : TagProposalRecord)
    (now : Int) : List SampleEvent :=
  (buildSampleEvent r now
    :: existing.filter (fun e => e.eventId ≠ r.eventId)).take 5

/-- `sourceCounts[sourceId] = (sourceCounts[sourceId] ?? 0) + 1` with JS
object key order (existing key updated in place, new key appended). -/
def bumpCount (counts : List (String × Int)) (k : String) :
    List (String × Int) :=
  match getA counts k with
  | some n => setA counts k (n + 1)
  | none => setA counts k 1

/-- `TagProposalRepository.recordOccurrence` : create a pending,
occurrence-1 document, or increment the existing one (`tx.update` keeps
`status` and `createdAt`; `data?.label ?? record.label` is the stored
label). -/
def recordOccurrence (store : List (String × ProposalDoc))
    (r : TagProposalRecord) (now : Int) : List (String × ProposalDoc) :=
  if r.slug = "" then store
  else
    match getA store r.slug with
    | none =>
      setA store r.slug
        { slug := r.slug, label := r.label, status := "pending"
          occurrenceCount := 1, createdAt := now, updatedAt := now
          lastSeenAt := now, sourceCounts := [(r.sourceId, 1)]
          sampleEvents := [buildSampleEvent r now] }
    | some data =>
      setA store r.slug
        { data with
          occurrenceCount := data.occurrenceCount + 1
          sourceCounts := bumpCount data.sourceCounts r.sourceId
          updatedAt := now
          lastSeenAt := now
          sampleEvents := trimSampleEvents data.sampleEvents r now }

structure ProposalContext where
  eventId : String
  sourceId : String
  sourceEventId : Option String
  title : String
  description : Option String
  tags : List String
deriving DecidableEq, Repr

/-- One tag of `TagProposalService.processEvent`: slugify, drop stop words,
dedup within the event, record an occurrence and emit the slug. -/
def processStep (ctx : ProposalContext) (now : Int)
    (acc : List (String × ProposalDoc) × List String) (tag : String) :
    List (String × ProposalDoc) × List String :=
  let slug := slugify tag
  if slug = "" then acc
  else if shouldKeepGeneratedSlug slug = false then acc
  else if slug ∈ acc.2 then acc
  else
    (recordOccurrence acc.1
      { slug := slug, label := formatLabel slug, eventId := ctx.eventId
        sourceId := ctx.sourceId, sourceEventId := ctx.sourceEventId
        eventTitle := ctx.title } now,
     acc.2 ++ [slug])

/-- `TagProposalService.processEvent` over the first
`MAX_PROPOSALS_PER_EVENT` classifier tags; returns the updated proposal
store and the emitted slugs (JS `Set` iteration order = insertion order). -/
def processEvent (proposals : List (String × ProposalDoc))
    (ctx : ProposalContext) (now : Int) :
    List (String × ProposalDoc) × List String :=
  if ctx.tags = [] then (proposals, [])
  else (ctx.tags.take MAX_PROPOSALS_PER_EVENT).foldl
    (processStep ctx now) (proposals, [])

end Ingest

namespace Ingest

/-- The stored event-document fields this pipeline reads or writes
(`EventStore.saveEvent` data; `classification` is projected to its `tags`,
`none` modelling a null classification). -/
structure EventDoc where
  title : String
  tags : List String
  classificationTags : Option (List String)
  vector : Option (List ℚ)
  rawSnapshotUpdated : Option String
  lastFetchedAt : String
  lastSeenAt : Option Int
  lastUpdatedAt : String
deriving DecidableEq, Repr

/-- `normalizeTagSlugs` : trim+lowercase, drop empties, `Set` dedup. -/
def normalizeTagSlugs (tags : List String) : List String :=
  jsSetDedup ((tags.map (fun t => jsToLower (jsTrim t))).filter
    (fun s => s ≠ ""))

/-- One fetched payload together with its normalized event
(`normalizeGoogleCalendarEvent` output projected to the fields this
pipeline reads).  `breadcrumbs` carries the normalized breadcrumbs'
source-event ids; `location` is `venue?.name ?? venue?.rawLocation`. -/
structure Payload where
  id : String
  title : String
  description : Option String
  tags : List String
  hasStart : Bool
  startMs : Int
  endMs : Option Int
  location : Option String
  updated : Option String
  organizer : Option String
  calendarId : Option String
  sourceId : String
  sourceEventId : String
  breadcrumbs : List String
  fetchedAt : String
  lastUpdatedAt : String
deriving DecidableEq, Repr

/-- `EventStore.touchEvent` : update `lastFetchedAt` and `lastSeenAt`;
`docRef.update` on a missing document throws (`none`). -/
def touchEvent (events : List (String × EventDoc)) (id : String)
    (updatedAt : String) (now : Int) :
    Option (List (String × EventDoc)) :=
  match getA events id with
  | some d =>
    some (setA events id
      { d with lastFetchedAt := updatedAt, lastSeenAt := some now })
  | none => none

/-- `EventStore.saveEvent` : overwrite the document (so `lastSeenAt` is
cleared), normalizing tag slugs and storing `rawSnapshot.updated`; the
result is `created` only when the prepare-time snapshot was missing AND the
document is still missing now. -/
def saveEvent (events : List (String × EventDoc)) (p : Payload)
    (eventTags : List String) (vector : Option (List ℚ))
    (existedAtPrepare : Bool) : List (String × EventDoc) × Bool :=
  let existsNow := existedAtPrepare ∨ (getA events p.id).isSome
  let doc : EventDoc :=
    { title := p.title
      tags := normalizeTagSlugs eventTags
      classificationTags := some eventTags
      vector := vector
      rawSnapshotUpdated := p.updated
      lastFetchedAt := p.fetchedAt
      lastSeenAt := none
      lastUpdatedAt := p.lastUpdatedAt }
  (setA events p.id doc, ¬existsNow)

/-- `sanitizeName` : null/empty-falsy trim. -/
def sanitizeName : Option String → Option String
  | none => none
  | some v =>
    if v = "" then none
    else if jsTrim v = "" then none else some (jsTrim v)

/-- `buildStableId` (src/unnamed/part_006): trim the parts, slug the
non-empty ones, join with `__`, cap at 200 characters. -/
def buildStableId (parts : List (Option String)) (fallback : String) :
    String :=
  let sanitized := (parts.map (fun p => jsTrim (p.getD ""))).filter
    (fun s => s ≠ "")
  if sanitized = [] then fallback
  else
    let slugged := (sanitized.map CatStore.createSlug).filter
      (fun s => s ≠ "")
    if slugged = [] then fallback
    else strTake (String.intercalate "__" slugged) 200

structure HostContext where
  hostIdSeed : String
  hostName : Option String
  organizer : Option String
deriving DecidableEq, Repr

/-- `deriveHostContext` (googleCalendarIngest.ts): the payload's organizer
field already merges `event.organizer ?? raw.organizer.displayName ??
raw.organizer.email`. -/
def deriveHostContext (p : Payload) : HostContext :=
  let organizer := sanitizeName p.organizer
  let calendarId := sanitizeName p.calendarId
  let fallbackSource := ((organizer.orElse fun _ => calendarId)).getD
    p.sourceId
  let seed0 := buildStableId [organizer, calendarId, some p.sourceId]
    (CatStore.createSlug
      (if fallbackSource = "" then "host" else fallbackSource))
  let hostIdSeed :=
    if seed0 ≠ "" then seed0
    else if CatStore.createSlug p.sourceId ≠ ""
    then CatStore.createSlug p.sourceId
    else "host"
  { hostIdSeed := hostIdSeed
    hostName := (organizer.orElse fun _ => calendarId).orElse
      (fun _ => some fallbackSource)
    organizer := organizer }

structure SeriesHost where
  id : String
  name : Option String
  organizer : Option String
  sourceIds : List String
deriving DecidableEq, Repr

/-- `EventSeriesStore.buildHost`. -/
def buildHost (hostId : String) (hostName organizer : Option String)
    (sourceId : String) : SeriesHost :=
  let tOrg := match organizer with | some o => jsTrim o | none => ""
  let tHost := match hostName with | some h => jsTrim h | none => ""
  let baseName : Option String :=
    if tOrg ≠ "" then some tOrg
    else if tHost ≠ "" then some tHost else none
  let fallback := CatStore.createSlug
    (if hostId = "" then sourceId else hostId)
  let hostSlug := buildStableId [some hostId, baseName, some sourceId]
    (if fallback = "" then "host" else fallback)
  let hid := if jsStartsWith hostSlug "host:" then hostSlug
    else "host:" ++ hostSlug
  { id := hid, name := baseName, organizer := organizer
    sourceIds := [sourceId] }

/-- `EventSeriesStore.buildSeriesId` : `hostId__slug(title)`, hashed when
over 200 characters (`sha1hex12` the first 12 hex chars of sha1). -/
def buildSeriesId (sha1hex12 : String → String) (hostId title : String) :
    String :=
  let s0 := CatStore.createSlug (if title = "" then "event" else title)
  let sanitizedTitle := if s0 = "" then "event" else s0
  let baseId := hostId ++ "__" ++ sanitizedTitle
  if baseId.length ≤ 200 then baseId
  else
    let hash := sha1hex12 sanitizedTitle
    let maxHostLength := max 1 (200 - hash.length - 2)
    strTake hostId maxHostLength ++ "__" ++ hash

/-- `EventSeriesStore.buildOccurrence` on the normalized event (`tags` are
the event's tags after `applyClassification`). -/
def buildOccurrence (p : Payload) (tags : List String) :
    Option SeriesOccurrence :=
  if p.hasStart = true then
    some { eventId := p.id, title := p.title, startTime := p.startMs
           endTime := p.endMs, location := p.location, tags := tags }
  else none

/-- `sanitizeOccurrences` : keep occurrences no older than 24 hours (the
field renormalization is the identity on well-typed documents). -/
def sanitizeOccurrences (nowMs : Int) (occs : List SeriesOccurrence) :
    List SeriesOccurrence :=
  occs.filter (fun o => nowMs - 86400000 ≤ o.startTime)

/-- `buildSummary` : first three lines of the trimmed description. -/
def buildSummary (description : Option String) : Option String :=
  match description with
  | none => none
  | some d =>
    if jsTrim d ≠ ""
    then some (String.intercalate "\n" ((splitOnChar '\n' (jsTrim d)).take 3))
    else none

/-- `mergeBreadcrumbs` (dedup by source-event id, keep the last 20); an
empty id models a breadcrumb without `sourceEventId`. -/
def mergeBreadcrumbs (existing next : List String) : List String :=
  jsSliceLast 20 (next.foldl
    (fun comb b =>
      if b = "" then comb
      else if b ∈ comb then comb else comb ++ [b])
    existing)

/-- The series-document fields this pipeline reads or writes. -/
structure SeriesDoc where
  title : String
  description : Option String
  summary : Option String
  host : SeriesHost
  tags : List String
  breadcrumbs : List String
  nextOccurrence : Option SeriesOccurrence
  upcomingOccurrences : List SeriesOccurrence
  nextStartTime : Option Int
  vector : Option (List ℚ)
  upcomingCount : Nat
  categoryId : Option String
  categoryName : Option String
  categorySlug : Option String
  createdAt : Int
  updatedAt : Int
deriving DecidableEq, Repr

/-- `EventSeriesStore.attachEvent` : create the series document or merge
the occurrence into it; returns the new store, the series id, the host and
the `created` flag. -/
def attachEvent (sha1hex12 : String → String)
    (db : List (String × SeriesDoc)) (p : Payload) (tags : List String)
    (vector : Option (List ℚ)) (hc : HostContext) (now : Int) :
    List (String × SeriesDoc) × String × SeriesHost × Bool :=
  let host := buildHost hc.hostIdSeed hc.hostName hc.organizer p.sourceId
  let seriesId := buildSeriesId sha1hex12 host.id p.title
  let occurrence := buildOccurrence p tags
  match getA db seriesId with
  | none =>
    let breadcrumbs :=
      if p.breadcrumbs ≠ [] then p.breadcrumbs else [p.sourceEventId]
    let series : SeriesDoc :=
      { title := p.title
        description := p.description
        summary := buildSummary p.description
        host := host
        tags := jsSetDedup tags
        breadcrumbs := breadcrumbs
        nextOccurrence := occurrence
        upcomingOccurrences :=
          match occurrence with | some o => [o] | none => []
        nextStartTime := occurrence.map (·.startTime)
        vector := vector
        upcomingCount := match occurrence with | some _ => 1 | none => 0
        categoryId := none
        categoryName := none
        categorySlug := none
        createdAt := now
        updatedAt := now }
    (setA db seriesId series, seriesId, host, true)
  | some data =>
    let existingOccurrences := sanitizeOccurrences now
      data.upcomingOccurrences
    let filteredOccurrences :=
      match occurrence with
      | some o => mergeOccurrences existingOccurrences o
      | none => existingOccurrences
    let nextOccurrence := filteredOccurrences.head?
    let series := { data with
      title := p.title
      description := data.description.orElse (fun _ => p.description)
      summary := data.summary.orElse (fun _ => buildSummary p.description)
      host := { host with
        sourceIds := jsSetDedup (data.host.sourceIds ++ [p.sourceId]) }
      tags := jsSetDedup (data.tags ++ tags)
      breadcrumbs := mergeBreadcrumbs data.breadcrumbs p.breadcrumbs
      nextOccurrence := nextOccurrence
      upcomingOccurrences := filteredOccurrences
      nextStartTime := nextOccurrence.map (·.startTime)
      vector := vector.orElse (fun _ => data.vector)
      upcomingCount := filteredOccurrences.length
      updatedAt := now }
    (setA db seriesId series, seriesId, host, false)

end Ingest

namespace Ingest

/-- `EventCategoryStore.listByHost` : the host's categories, most recently
updated first (stable sort; the pre-sort order models Firestore's document
order). -/
def listByHost (cats : List (String × CatStore.Category))
    (hostId : String) : List CatStore.Category :=
  ((cats.filter (fun p => p.2.hostId = hostId)).map (·.2)).insertionSort
    (fun a b => b.updatedAt ≤ a.updatedAt)

def toSummary (c : CatStore.Category) : Assign.CatSummary :=
  { id := c.id, name := c.name, sampleSeriesTitles := c.sampleSeriesTitles }

/-- `EventCategoryClassifier.classify` input. -/
structure CatClassifyInput where
  hostName : Option String
  seriesTitle : String
  seriesDescription : Option String
  seriesTags : List String
  existingCategories : List Assign.CatSummary
deriving DecidableEq, Repr

/-- `EventCategoryAssignmentService.assignSeries` over the stores.  The
`.error` case is the throw (`Series not found`, or
`addSeriesToCategory` on a category document that was neither found nor
just created), which happens before any store write; `removeSeriesFromCategory`
swallows its own errors. -/
def assignRun (buildCatId : String → String → String)
    (catClassify : CatClassifyInput → Assign.ClassifierResult)
    (seriesDb : List (String × SeriesDoc))
    (cats : List (String × CatStore.Category))
    (seriesId hostId : String) (hostName : Option String) (now : Int)
    (data : SeriesDoc) :
    Except Unit
      (List (String × SeriesDoc) × List (String × CatStore.Category)
        × String × String) :=
  let seriesTitle := data.title
  let seriesDescription := data.description.orElse
    (fun _ => data.summary)
  let seriesTags := data.tags
  let existingCategories := (listByHost cats hostId).map toSummary
  let classification := catClassify
    { hostName := hostName, seriesTitle := seriesTitle
      seriesDescription := seriesDescription, seriesTags := seriesTags
      existingCategories := existingCategories }
  let normalizedName := jsTrim classification.categoryName
  let existingMatch := existingCategories.find?
    (fun c => Assign.jsLocaleEqAccent c.name normalizedName)
  let categoryId := match existingMatch with
    | some m => m.id
    | none => buildCatId hostId normalizedName
  let categoryName := match existingMatch with
    | some m => m.name
    | none => normalizedName
  let cats1 :=
    if existingMatch.isNone ∧ classification.action = .createNew
    then setA cats categoryId (CatStore.createCategory
      { id := categoryId, hostId := hostId, name := categoryName
        tags := seriesTags, seriesId := seriesId
        seriesTitle := seriesTitle } now)
    else cats
  match getA cats1 categoryId with
  | none => .error ()
  | some c =>
    let cats2 := setA cats1 categoryId
      (CatStore.addSeriesToCategory c seriesId seriesTitle seriesTags
        now)
    let cats3 := match data.categoryId with
      | some old =>
        if old ≠ "" ∧ old ≠ categoryId then
          match getA cats2 old with
          | some oc => setA cats2 old
              (CatStore.removeSeriesFromCategory oc seriesId now)
          | none => cats2
        else cats2
      | none => cats2
    let series2 := setA seriesDb seriesId
      { data with
        categoryId := some categoryId
        categoryName := some categoryName
        categorySlug := some
          (if CatStore.createSlug categoryName = "" then categoryId
           else CatStore.createSlug categoryName)
        updatedAt := now }
    .ok (series2, cats3, categoryId, categoryName)

/-- `EventCategoryAssignmentService.assignSeries` dispatch: throw when the
series is missing, keep a non-empty existing assignment unless forced,
otherwise classify and assign. -/
def assignSeries (buildCatId : String → String → String)
    (catClassify : CatClassifyInput → Assign.ClassifierResult)
    (seriesDb : List (String × SeriesDoc))
    (cats : List (String × CatStore.Category))
    (seriesId hostId : String) (hostName : Option String)
    (force : Bool) (now : Int) :
    Except Unit
      (List (String × SeriesDoc) × List (String × CatStore.Category)
        × String × String) :=
  match getA seriesDb seriesId with
  | none => .error ()
  | some data =>
    match data.categoryId, data.categoryName with
    | some cid, some cname =>
      if cid ≠ "" ∧ cname ≠ "" ∧ force = false
      then .ok (seriesDb, cats, cid, cname)
      else assignRun buildCatId catClassify seriesDb cats seriesId hostId
        hostName now data
    | _, _ => assignRun buildCatId catClassify seriesDb cats seriesId
        hostId hostName now data

/-- One prepared entry (phase 0 output, phases 1–2 update
`existingClassification` / `existingTags` / `vector` in place). -/
structure Prepared where
  payload : Payload
  reuseClassification : Bool
  existedAtPrepare : Bool
  vector : Option (List ℚ)
  existingClassification : Option (List String)
  existingTags : List String
  lastUpdatedAt : Option String
deriving DecidableEq, Repr

/-- Phase 0 for one payload: normalize (throws without a start time) and
decide classification reuse against the pre-run store; `Boolean(existing &&
incoming && stored && stored === incoming)` with empty strings falsy. -/
def prepareOne (events : List (String × EventDoc)) (forceRefresh : Bool)
    (p : Payload) : Option Prepared :=
  if p.hasStart = true then
    let existingSnapshot := getA events p.id
    let existingUpdated := existingSnapshot.bind (·.rawSnapshotUpdated)
    let reuse : Bool :=
      !forceRefresh && existingSnapshot.isSome
        && (match p.updated with | some u => !(u == "") | none => false)
        && (match existingUpdated with
            | some u => !(u == "") | none => false)
        && (existingUpdated == p.updated)
    some { payload := p
           reuseClassification := reuse
           existedAtPrepare := existingSnapshot.isSome
           vector := if reuse then existingSnapshot.bind (·.vector)
                     else none
           existingClassification :=
             if reuse then existingSnapshot.bind (·.classificationTags)
             else none
           existingTags :=
             if reuse then (existingSnapshot.map (·.tags)).getD [] else []
           lastUpdatedAt := existingSnapshot.map (·.lastUpdatedAt) }
  else none

/-- The phase-0 fold: collect prepared entries, count normalization
failures as skipped. -/
def prepStep (events : List (String × EventDoc)) (forceRefresh : Bool)
    (acc : List Prepared × Nat) (p : Payload) : List Prepared × Nat :=
  match prepareOne events forceRefresh p with
  | some e => (acc.1 ++ [e], acc.2)
  | none => (acc.1, acc.2 + 1)

/-- The LLM / embedding / category-classifier / hash collaborators. -/
structure Oracles where
  classifyTags : String → Option String → List String
  classifyVector : String → Option String → Option (List ℚ)
  embedEnriched : String → List ℚ
  catClassify : CatClassifyInput → Assign.ClassifierResult
  buildCatId : String → String → String
  sha1hex12 : String → String

/-- `buildEnrichedText`. -/
def buildEnrichedText (title : String) (description : Option String)
    (tags : List String) : String :=
  let parts := [title]
  let parts := match description with
    | some d => if jsTrim d ≠ "" then parts ++ [jsTrim d] else parts
    | none => parts
  let parts :=
    if tags ≠ []
    then parts ++ ["\nRelated topics: " ++ String.intercalate ", " tags]
    else parts
  jsTrim (String.intercalate "\n" parts)

/-- Phases 1–2 for one entry: classify (tags + text-blob vector), then
re-embed with the tag-enriched text when any tags came back. -/
def classifyPhase (o : Oracles) (e : Prepared) : Prepared :=
  if e.reuseClassification then e
  else
    let tags := o.classifyTags e.payload.title e.payload.description
    let v := o.classifyVector e.payload.title e.payload.description
    let e1 := { e with vector := v, existingTags := tags
                       existingClassification := some tags }
    if tags ≠ [] then
      { e1 with vector := some (o.embedEnriched
          (buildEnrichedText e.payload.title e.payload.description tags)) }
    else e1

structure IngestState where
  events : List (String × EventDoc)
  proposals : List (String × ProposalDoc)
  series : List (String × SeriesDoc)
  categories : List (String × CatStore.Category)
deriving DecidableEq, Repr

structure IngestStats where
  fetched : Nat
  created : Nat
  updated : Nat
  skipped : Nat
deriving DecidableEq, Repr

/-- Phase 3 for one entry: the reuse path only touches the event document;
the full path records tag proposals, applies the classification, attaches
the series, assigns a category (failures caught) and saves the event.  The
post-assignment category-metadata backfill only annotates the in-memory
event object on fields `saveEvent` does not persist, so it has no store
effect. -/
def phase3Step (o : Oracles) (forceRefresh : Bool) (now : Int)
    (acc : IngestState × IngestStats) (e : Prepared) :
    IngestState × IngestStats :=
  let st := acc.1
  let stats := acc.2
  if e.reuseClassification = true ∧ e.existedAtPrepare = true
      ∧ forceRefresh = false then
    match touchEvent st.events e.payload.id
        (((e.payload.updated).orElse (fun _ => e.lastUpdatedAt)).getD
          e.payload.fetchedAt) now with
    | some events2 =>
      ({ st with events := events2 },
       { stats with updated := stats.updated + 1 })
    | none => (st, { stats with skipped := stats.skipped + 1 })
  else
    let classificationTags :=
      if e.reuseClassification = true ∧ e.existingClassification.isSome
      then jsSetDedup (if e.existingTags ≠ [] then e.existingTags
                       else e.existingClassification.getD [])
      else match e.existingClassification with
        | some tags => tags
        | none => o.classifyTags e.payload.title e.payload.description
    let classificationVector :=
      if e.reuseClassification = true ∧ e.existingClassification.isSome
      then e.vector
      else match e.existingClassification with
        | some _ => e.vector
        | none => o.classifyVector e.payload.title e.payload.description
    let pres := processEvent st.proposals
      { eventId := e.payload.id, sourceId := e.payload.sourceId
        sourceEventId := some e.payload.sourceEventId
        title := e.payload.title, description := e.payload.description
        tags := jsSetDedup (e.payload.tags ++ classificationTags) } now
    let eventTags := (jsSetDedup (classificationTags ++ pres.2)).filter
      shouldKeepGeneratedSlug
    let hc := deriveHostContext e.payload
    let att := attachEvent o.sha1hex12 st.series e.payload eventTags
      classificationVector hc now
    let series2 := att.1
    let seriesId := att.2.1
    let host := att.2.2.1
    let createdSeries := att.2.2.2
    let asg := assignSeries o.buildCatId o.catClassify series2
      st.categories seriesId host.id
      (host.name.orElse (fun _ => hc.hostName))
      (forceRefresh || createdSeries) now
    let series3 := match asg with
      | .ok r => r.1
      | .error _ => series2
    let categories2 := match asg with
      | .ok r => r.2.1
      | .error _ => st.categories
    let sres := saveEvent st.events e.payload eventTags
      classificationVector e.existedAtPrepare
    ({ events := sres.1, proposals := pres.1, series := series3
       categories := categories2 },
     if sres.2 then { stats with created := stats.created + 1 }
     else { stats with updated := stats.updated + 1 })

/-- `ingestGoogleCalendar` with the fetch already performed: phase 0
(normalize and decide reuse against the pre-run store), phases 1–2
(classification and enriched embedding for non-reuse entries), phase 3
(store the events). -/
def ingest (o : Oracles) (forceRefresh : Bool) (now : Int)
    (st : IngestState) (payloads : List Payload) :
    IngestState × IngestStats :=
  let prep0 := payloads.foldl (prepStep st.events forceRefresh) ([], 0)
  let prepared2 := prep0.1.map (classifyPhase o)
  prepared2.foldl (phase3Step o forceRefresh now)
    (st, { fetched := payloads.length, created := 0, updated := 0
           skipped := prep0.2 })

end Ingest

namespace Ingest

def c2Oracles : Oracles :=
  { classifyTags := fun _ _ => ["community-gardening"]
    classifyVector := fun _ _ => none
    embedEnriched := fun _ => [1]
    catClassify := fun _ =>
      { categoryName := "Gardening", action := .createNew }
    buildCatId := fun h n => "category:" ++ h ++ ":" ++ CatStore.createSlug n
    sha1hex12 := fun _ => "0123456789ab" }

/-- A payload whose Calendar-API item carries no `updated` field. -/
def c2Payload : Payload :=
  { id := "evt-1", title := "Garden Meetup", description := none
    tags := [], hasStart := true, startMs := 1000, endMs := none
    location := none, updated := none, organizer := some "Jane Gardener"
    calendarId := some "cal-1", sourceId := "google-calendar:cal-1"
    sourceEventId := "uid-1", breadcrumbs := [], fetchedAt := "F1"
    lastUpdatedAt := "L1" }

def c2State0 : IngestState :=
  { events := [], proposals := [], series := [], categories := [] }

def c2Run1 : IngestState × IngestStats :=
  ingest c2Oracles false 1000 c2State0 [c2Payload]

def c2Run2 : IngestState × IngestStats :=
  ingest c2Oracles false 2000 c2Run1.1 [c2Payload]

end Ingest

/-- C2 counterexample: one payload without an `updated` timestamp, ingested
twice unchanged with `forceRefresh` false.  The second run does report
`created = 0`, `updated = 1 = N`, but — because `Boolean(incomingUpdated)`
is false — classification reuse never triggers: the event goes down the
full path again and the `community-gardening` tag proposal's
`occurrenceCount` is bumped from 1 to 2, so the run does record new
tag-proposal occurrences. -/
theorem C2_counterexample :
    Ingest.c2Payload.updated = none
      ∧ Ingest.c2Run1.2
          = { fetched := 1, created := 1, updated := 0, skipped := 0 }
      ∧ (Ingest.getA Ingest.c2Run1.1.proposals "community-gardening").map
          (fun d => d.occurrenceCount) = some 1
      ∧ Ingest.c2Run2.2
          = { fetched := 1, created := 0, updated := 1, skipped := 0 }
      ∧ (Ingest.getA Ingest.c2Run2.1.proposals "community-gardening").map
          (fun d => d.occurrenceCount) = some 2 := by
  refine ⟨rfl, by decide, by decide, by decide, by decide⟩

namespace Ingest

theorem getA_cons_self {β : Type} {a : String × β}
    {t : List (String × β)} {k : String} (hk : a.1 = k) :
    getA (a :: t) k = some a.2 := by
  unfold getA
  rw [List.find?_cons_of_pos _ (by simp [hk])]
  rfl

theorem getA_cons_ne {β : Type} {a : String × β} {t : List (String × β)}
    {k : String} (hk : ¬a.1 = k) :
    getA (a :: t) k = getA t k := by
  unfold getA
  rw [List.find?_cons_of_neg _ (by simp [hk])]

theorem setA_cons_ne {β : Type} (a : String × β) (t : List (String × β))
    (k : String) (v : β) (hk : ¬a.1 = k) :
    setA (a :: t) k v = a :: setA t k v := by
  unfold setA
  rw [List.find?_cons_of_neg _ (by simp [hk])]
  by_cases hp : (t.find? (fun p => p.1 = k)).isSome = true
  · rw [if_pos hp, if_pos hp, List.map_cons, if_neg hk]
  · rw [if_neg hp, if_neg hp, List.cons_append]

theorem getA_setA_self {β : Type} :
    ∀ (l : List (String × β)) (k : String) (v : β),
      getA (setA l k v) k = some v
  | [], k, v => by
    unfold setA
    rw [if_neg (by simp)]
    exact getA_cons_self rfl
  | a :: t, k, v => by
    by_cases hk : a.1 = k
    · unfold setA
      rw [if_pos (by rw [List.find?_cons_of_pos _ (by simp [hk])]; rfl),
        List.map_cons, if_pos hk]
      exact getA_cons_self rfl
    · rw [setA_cons_ne a t k v hk, getA_cons_ne hk]
      exact getA_setA_self t k v

theorem getA_mapset_ne {β : Type} {k id : String} (v : β)
    (hne : ¬id = k) :
    ∀ t : List (String × β),
      getA (t.map (fun p => if p.1 = k then (k, v) else p)) id = getA t id
  | [] => rfl
  | b :: t => by
    rw [List.map_cons]
    by_cases hbk : b.1 = k
    · rw [if_pos hbk]
      have h1 : ¬(k, v).1 = id := fun h => hne h.symm
      rw [getA_cons_ne h1, getA_cons_ne (fun h => hne (hbk ▸ h).symm)]
      exact getA_mapset_ne v hne t
    · rw [if_neg hbk]
      by_cases hbi : b.1 = id
      · rw [getA_cons_self hbi, getA_cons_self hbi]
      · rw [getA_cons_ne hbi, getA_cons_ne hbi]
        exact getA_mapset_ne v hne t

theorem getA_setA_ne {β : Type} {k id : String} (hne : ¬id = k) :
    ∀ (l : List (String × β)) (v : β),
      getA (setA l k v) id = getA l id
  | [], v => by
    unfold setA
    rw [if_neg (by simp)]
    exact getA_cons_ne (fun h => hne h.symm)
  | a :: t, v => by
    by_cases hk : a.1 = k
    · unfold setA
      rw [if_pos (by rw [List.find?_cons_of_pos _ (by simp [hk])]; rfl),
        List.map_cons, if_pos hk]
      have h1 : ¬(k, v).1 = id := fun h => hne h.symm
      rw [getA_cons_ne h1, getA_cons_ne (fun h => hne (hk ▸ h).symm)]
      exact getA_mapset_ne v hne t
    · rw [setA_cons_ne a t k v hk]
      by_cases hai : a.1 = id
      · rw [getA_cons_self hai, getA_cons_self hai]
      · rw [getA_cons_ne hai, getA_cons_ne hai]
        exact getA_setA_ne hne t v

theorem getA_setA_isSome {β : Type} {l : List (String × β)} {k : String}
    {v : β} (h : (getA l k).isSome = true) (id : String) :
    (getA (setA l k v) id).isSome = (getA l id).isSome := by
  by_cases hik : id = k
  · subst hik
    rw [getA_setA_self l id v, h]
    rfl
  · rw [getA_setA_ne hik l v]

end Ingest

namespace Ingest

/-- A payload is "unchanged" for classification reuse: the event document
exists, the payload carries a non-empty `updated` timestamp, and the stored
`rawSnapshot.updated` equals it. -/
def reuseReady (ev : List (String × EventDoc)) (p : Payload) : Prop :=
  p.hasStart = true
    ∧ ∃ (u : String) (d : EventDoc), u ≠ "" ∧ p.updated = some u
        ∧ getA ev p.id = some d ∧ d.rawSnapshotUpdated = some u

theorem prepareOne_of_reuseReady {ev : List (String × EventDoc)}
    {p : Payload} (h : reuseReady ev p) :
    ∃ e : Prepared, prepareOne ev false p = some e
      ∧ e.reuseClassification = true ∧ e.existedAtPrepare = true
      ∧ e.payload = p := by
  obtain ⟨hstart, u, d, hu, hupd, hget, hraw⟩ := h
  have hbeq : (u == "") = false := by
    exact beq_eq_false_iff_ne.mpr hu
  unfold prepareOne
  rw [if_pos hstart]
  refine ⟨_, rfl, ?_, ?_, rfl⟩
  · show (!false && (getA ev p.id).isSome
        && (match p.updated with | some u => !(u == "") | none => false)
        && (match (getA ev p.id).bind (·.rawSnapshotUpdated) with
            | some u => !(u == "") | none => false)
        && ((getA ev p.id).bind (·.rawSnapshotUpdated) == p.updated))
      = true
    rw [hget, hupd]
    simp [hraw, hbeq]
  · show (getA ev p.id).isSome = true
    rw [hget]
    rfl

/-- With classification reuse decided, phases 1–2 leave the entry alone. -/
theorem classifyPhase_reuse (o : Oracles) (e : Prepared)
    (h : e.reuseClassification = true) : classifyPhase o e = e := by
  unfold classifyPhase
  rw [if_pos h]

theorem prepare_fold (ev : List (String × EventDoc)) :
    ∀ (payloads : List Payload) (acc : List Prepared × Nat),
      (∀ p ∈ payloads, reuseReady ev p) →
      ∃ es : List Prepared,
        payloads.foldl (prepStep ev false) acc = (acc.1 ++ es, acc.2)
          ∧ es.length = payloads.length
          ∧ ∀ e ∈ es, e.reuseClassification = true
              ∧ e.existedAtPrepare = true ∧ reuseReady ev e.payload
  | [], acc, _ => ⟨[], by simp, rfl, by simp⟩
  | p :: ps, acc, h => by
    obtain ⟨e, hpe, hr, hex, hpay⟩ :=
      prepareOne_of_reuseReady (h p (List.mem_cons_self p ps))
    obtain ⟨es, hfold, hlen, hall⟩ := prepare_fold ev ps (acc.1 ++ [e], acc.2)
      (fun q hq => h q (List.mem_cons_of_mem p hq))
    refine ⟨e :: es, ?_, by simp [hlen], ?_⟩
    · rw [List.foldl_cons]
      have hstep : prepStep ev false acc p = (acc.1 ++ [e], acc.2) := by
        unfold prepStep
        rw [hpe]
      rw [hstep, hfold]
      simp
    · intro x hx
      rcases List.mem_cons.mp hx with hx | hx
      · subst hx
        exact ⟨hr, hex, by rw [hpay]; exact h p (List.mem_cons_self p ps)⟩
      · exact hall x hx

end Ingest

namespace Ingest

/-- Phase 3 over reuse-only entries: every step is a `touchEvent` (which
rewrites only `lastFetchedAt`/`lastSeenAt` of an existing event document),
so proposals, series and categories are untouched and each entry counts as
`updated`. -/
theorem phase3_reuse_fold (o : Oracles) (now : Int)
    (ev0 : List (String × EventDoc)) :
    ∀ (entries : List Prepared) (st : IngestState) (stats : IngestStats),
      (∀ e ∈ entries, e.reuseClassification = true
        ∧ e.existedAtPrepare = true
        ∧ (getA ev0 e.payload.id).isSome = true) →
      (∀ id, (getA st.events id).isSome = (getA ev0 id).isSome) →
      (entries.foldl (phase3Step o false now) (st, stats)).1.proposals
          = st.proposals
        ∧ (entries.foldl (phase3Step o false now) (st, stats)).1.series
          = st.series
        ∧ (entries.foldl (phase3Step o false now) (st, stats)).1.categories
          = st.categories
        ∧ (entries.foldl (phase3Step o false now) (st, stats)).2
          = { stats with updated := stats.updated + entries.length }
  | [], st, stats, _, _ => ⟨rfl, rfl, rfl, rfl⟩
  | e :: rest, st, stats, hall, hkeys => by
    obtain ⟨hr, hex, hsome⟩ := hall e (List.mem_cons_self e rest)
    have hcur : (getA st.events e.payload.id).isSome = true := by
      rw [hkeys]
      exact hsome
    obtain ⟨d, hd⟩ : ∃ d, getA st.events e.payload.id = some d := by
      cases hgd : getA st.events e.payload.id with
      | none => rw [hgd] at hcur; cases hcur
      | some d => exact ⟨d, rfl⟩
    have hstep : phase3Step o false now (st, stats) e
        = ({ st with
              events := setA st.events e.payload.id
                ({ d with
                    lastFetchedAt :=
                      (((e.payload.updated).orElse
                        (fun _ => e.lastUpdatedAt)).getD e.payload.fetchedAt)
                    lastSeenAt := some now }) },
           { stats with updated := stats.updated + 1 }) := by
      unfold phase3Step
      rw [if_pos ⟨hr, hex, rfl⟩]
      unfold touchEvent
      rw [hd]
    rw [List.foldl_cons, hstep]
    have ih := phase3_reuse_fold o now ev0 rest
      ({ st with
          events := setA st.events e.payload.id
            ({ d with
                lastFetchedAt :=
                  (((e.payload.updated).orElse
                    (fun _ => e.lastUpdatedAt)).getD e.payload.fetchedAt)
                lastSeenAt := some now }) })
      ({ stats with updated := stats.updated + 1 })
      (fun x hx => hall x (List.mem_cons_of_mem e hx))
      (fun id => by
        show (getA (setA st.events e.payload.id _) id).isSome = _
        rw [getA_setA_isSome hcur id]
        exact hkeys id)
    refine ⟨ih.1, ih.2.1, ih.2.2.1, ?_⟩
    rw [ih.2.2.2]
    have harith : stats.updated + 1 + rest.length
        = stats.updated + (rest.length + 1) := by omega
    exact congrArg
      (fun n => IngestStats.mk stats.fetched stats.created n stats.skipped)
      harith

end Ingest

/-- C2 amended: classification reuse requires the payloads to carry a
non-empty `updated` timestamp that matches the stored
`rawSnapshot.updated`.  Under that condition (which "unchanged payloads"
only guarantees when the source emits `updated` at all — see the
counterexample) a re-run with `forceRefresh` false reports `created = 0`,
`updated = N`, `skipped = 0`, records no tag-proposal occurrence, and
leaves every series and category document — hence every version — exactly
as it was. -/
theorem C2_amended (o : Ingest.Oracles) (st : Ingest.IngestState)
    (payloads : List Ingest.Payload) (now : Int)
    (h : ∀ p ∈ payloads, Ingest.reuseReady st.events p) :
    (Ingest.ingest o false now st payloads).2
        = { fetched := payloads.length, created := 0
            updated := payloads.length, skipped := 0 }
      ∧ (Ingest.ingest o false now st payloads).1.proposals = st.proposals
      ∧ (Ingest.ingest o false now st payloads).1.series = st.series
      ∧ (Ingest.ingest o false now st payloads).1.categories
          = st.categories := by
  obtain ⟨es, hfold, hlen, hall⟩ :=
    Ingest.prepare_fold st.events payloads ([], 0) h
  have hmap : es.map (Ingest.classifyPhase o) = es := by
    have hcongr : ∀ e ∈ es, Ingest.classifyPhase o e = id e :=
      fun e he => Ingest.classifyPhase_reuse o e (hall e he).1
    rw [List.map_congr_left hcongr, List.map_id]
  have hprops : ∀ e ∈ es, e.reuseClassification = true
      ∧ e.existedAtPrepare = true
      ∧ (Ingest.getA st.events e.payload.id).isSome = true := by
    intro e he
    obtain ⟨hr, hex, _, u, d, _, _, hget, _⟩ := hall e he
    exact ⟨hr, hex, by rw [hget]; rfl⟩
  have hrun := Ingest.phase3_reuse_fold o now st.events es st
    { fetched := payloads.length, created := 0, updated := 0
      skipped := 0 }
    hprops (fun _ => rfl)
  have hing : Ingest.ingest o false now st payloads
      = es.foldl (Ingest.phase3Step o false now)
          (st, { fetched := payloads.length, created := 0, updated := 0
                 skipped := 0 }) := by
    unfold Ingest.ingest
    rw [hfold]
    dsimp only
    rw [List.nil_append, hmap]
  rw [hing]
  refine ⟨?_, hrun.1, hrun.2.1, hrun.2.2.1⟩
  rw [hrun.2.2.2, hlen]
  exact congrArg (fun m => Ingest.IngestStats.mk payloads.length 0 m 0)
    (Nat.zero_add payloads.length)

namespace Ingest

/-- The stored document of `c2Payload`'s event after a previous ingest that
recorded `rawSnapshot.updated = "U1"`. -/
def c2ReuseDoc : EventDoc :=
  { title := "Garden Meetup", tags := [], classificationTags := some []
    vector := none, rawSnapshotUpdated := some "U1", lastFetchedAt := "F0"
    lastSeenAt := none, lastUpdatedAt := "L1" }

/-- The same payload now carrying the matching `updated` timestamp. -/
def c2ReusePayload : Payload :=
  { c2Payload with updated := some "U1" }

def c2ReuseState : IngestState :=
  { events := [("evt-1", c2ReuseDoc)], proposals := [], series := []
    categories := [] }

end Ingest

/-- C2 amended, witnessed: a single payload with a matching non-empty
`updated` timestamp is reused — the second run reports `created = 0`,
`updated = 1`, `skipped = 0` and leaves proposals, series and categories
untouched. -/
theorem C2_amended_witness :
    (∀ p ∈ [Ingest.c2ReusePayload],
        Ingest.reuseReady Ingest.c2ReuseState.events p)
      ∧ (Ingest.ingest Ingest.c2Oracles false 3000 Ingest.c2ReuseState
          [Ingest.c2ReusePayload]).2
          = { fetched := 1, created := 0, updated := 1, skipped := 0 }
      ∧ (Ingest.ingest Ingest.c2Oracles false 3000 Ingest.c2ReuseState
          [Ingest.c2ReusePayload]).1.proposals
          = Ingest.c2ReuseState.proposals
      ∧ (Ingest.ingest Ingest.c2Oracles false 3000 Ingest.c2ReuseState
          [Ingest.c2ReusePayload]).1.series = Ingest.c2ReuseState.series
      ∧ (Ingest.ingest Ingest.c2Oracles false 3000 Ingest.c2ReuseState
          [Ingest.c2ReusePayload]).1.categories
          = Ingest.c2ReuseState.categories := by
  have hready : ∀ p ∈ [Ingest.c2ReusePayload],
      Ingest.reuseReady Ingest.c2ReuseState.events p := by
    intro p hp
    rw [List.mem_singleton] at hp
    subst hp
    exact ⟨rfl, "U1", Ingest.c2ReuseDoc, by decide, rfl, by decide, rfl⟩
  have h := C2_amended Ingest.c2Oracles Ingest.c2ReuseState
    [Ingest.c2ReusePayload] 3000 hready
  exact ⟨hready, h.1, h.2.1, h.2.2.1, h.2.2.2⟩
